import Mathlib

/-!
Verification development for the RDCleanPath relay proxy
(`client/wasm_example/wasm/internal/rdp/rdcleanpath.go` and its companion
file holding `processRDCleanPathPDU` / `setupTLSConnection` /
`setupPlainConnection` / `handleDirectRDP` / the forwarders).

The development has two layers:

* a byte-level shallow embedding of the ASN.1 DER codec used by
  `asn1.Marshal` / `asn1.Unmarshal` on the `RDCleanPathPDU` Go struct
  (explicit context tags 0..7 and 9, DER definite lengths, minimal
  two's-complement INTEGER, UTF8String validation on decode);
* a sequential embedding of the negotiation engine: connection state,
  registry state and an event trace recording dials, remote writes,
  websocket sends (PDU or raw), forwarder starts and cleanup.

Bytes are modelled as `List Nat`; Go strings appear as their UTF-8 byte
lists (the Go zero value `""` is the empty list). A Go `nil` slice is
`Option.none`, a present (possibly empty) slice is `Option.some`,
mirroring `encoding/asn1`'s presence rule for `optional` fields.
-/

set_option maxRecDepth 4000

/-- `2 ^ (8 * k)`, the number of values of a `k`-byte big-endian string. -/
def pow8 (k : Nat) : Nat := 2 ^ (8 * k)

theorem pow8_succ (k : Nat) : pow8 (k + 1) = 256 * pow8 k := by
  show 2 ^ (8 * (k + 1)) = 256 * 2 ^ (8 * k)
  rw [Nat.mul_add, Nat.pow_add]
  ring

theorem pow8_zero : pow8 0 = 1 := rfl

theorem pow8_pos (k : Nat) : 0 < pow8 k := Nat.pos_pow_of_pos _ (by omega)

/-- Big-endian bytes of `n`, exactly `k` bytes wide (high byte first).
This is the digit pattern `encoding/asn1` emits for fixed-width values. -/
def natToBE : Nat → Nat → List Nat
  | 0, _ => []
  | k + 1, n => (n / pow8 k) % 256 :: natToBE k (n % pow8 k)

/-- Value of a big-endian byte string, as accumulated by Go's decode loops. -/
def beToNat (bs : List Nat) : Nat := bs.foldl (fun a d => 256 * a + d) 0

theorem natToBE_length (k n : Nat) : (natToBE k n).length = k := by
  induction k generalizing n with
  | zero => rfl
  | succ k ih => simp [natToBE, ih]

theorem beToNat_aux (k a n : Nat) (h : n < pow8 k) :
    (natToBE k n).foldl (fun a d => 256 * a + d) a = a * pow8 k + n := by
  induction k generalizing a n with
  | zero =>
    have : n = 0 := by have := h; simp [pow8] at this; omega
    simp [natToBE, pow8, this]
  | succ k ih =>
    have hmod : n % pow8 k < pow8 k := Nat.mod_lt _ (pow8_pos k)
    have hdiv : n / pow8 k < 256 := by
      have := pow8_succ k
      have hp := pow8_pos k
      rw [Nat.div_lt_iff_lt_mul hp]
      omega
    have hsm : (n / pow8 k) % 256 = n / pow8 k := Nat.mod_eq_of_lt hdiv
    simp only [natToBE, List.foldl_cons, hsm]
    rw [ih _ _ hmod]
    have := Nat.div_add_mod n (pow8 k)
    rw [pow8_succ]
    ring_nf
    nlinarith [Nat.div_add_mod n (pow8 k)]

theorem beToNat_natToBE (k n : Nat) (h : n < pow8 k) :
    beToNat (natToBE k n) = n := by
  simpa [beToNat] using beToNat_aux k 0 n h

/-- Number of bytes needed to represent `n` (0 for 0), fuel-driven so that
the kernel can evaluate it. -/
def byteLenAux : Nat → Nat → Nat
  | 0, _ => 0
  | f + 1, n => if n = 0 then 0 else byteLenAux f (n / 256) + 1

/-- Minimal byte width of `n` in base 256, as computed by Go's
`lengthLength` loop. -/
def byteLen (n : Nat) : Nat := byteLenAux n n

theorem byteLenAux_spec (f n : Nat) (hf : n ≤ f) :
    n < pow8 (byteLenAux f n) ∧ (n ≠ 0 → pow8 (byteLenAux f n - 1) ≤ n) := by
  induction f generalizing n with
  | zero =>
    have : n = 0 := by omega
    subst this
    simp [byteLenAux, pow8]
  | succ f ih =>
    by_cases h0 : n = 0
    · subst h0; simp [byteLenAux, pow8]
    · have hrec : n / 256 ≤ f := by
        have : n / 256 < n := Nat.div_lt_self (by omega) (by omega)
        omega
      obtain ⟨h1, h2⟩ := ih (n / 256) hrec
      constructor
      · have : byteLenAux (f + 1) n = byteLenAux f (n / 256) + 1 := by
          simp [byteLenAux, h0]
        rw [this, pow8_succ]
        have := Nat.div_add_mod n 256
        have hm : n % 256 < 256 := Nat.mod_lt _ (by omega)
        nlinarith
      · intro _
        have heq : byteLenAux (f + 1) n = byteLenAux f (n / 256) + 1 := by
          simp [byteLenAux, h0]
        rw [heq]
        by_cases hq : n / 256 = 0
        · have : byteLenAux f (n / 256) = 0 := by
            cases f <;> simp [byteLenAux, hq]
          simp [this, pow8]
          omega
        · have := h2 hq
          have hbl : 1 ≤ byteLenAux f (n / 256) := by
            by_contra hc
            have : byteLenAux f (n / 256) = 0 := by omega
            rw [this] at h1
            simp [pow8] at h1
            omega
          have hstep : pow8 (byteLenAux f (n / 256) + 1 - 1)
              = pow8 (byteLenAux f (n / 256) - 1 + 1) := by
            congr 1
            omega
          rw [hstep, pow8_succ]
          have hd : 256 * pow8 (byteLenAux f (n / 256) - 1) ≤ 256 * (n / 256) :=
            Nat.mul_le_mul_left _ this
          have := Nat.div_add_mod n 256
          omega

theorem byteLen_lt (n : Nat) : n < pow8 (byteLen n) :=
  (byteLenAux_spec n n (Nat.le_refl n)).1

theorem byteLen_le (n : Nat) (h : n ≠ 0) : pow8 (byteLen n - 1) ≤ n :=
  (byteLenAux_spec n n (Nat.le_refl n)).2 h

theorem byteLen_pos (n : Nat) (h : n ≠ 0) : 1 ≤ byteLen n := by
  by_contra hc
  have h0 : byteLen n = 0 := by omega
  have := byteLen_lt n
  rw [h0] at this
  simp [pow8] at this
  omega

theorem takeAppendLen {α : Type} (l r : List α) : (l ++ r).take l.length = l := by
  induction l with
  | nil => rfl
  | cons a l ih => simp [ih]

theorem dropAppendLen {α : Type} (l r : List α) : (l ++ r).drop l.length = r := by
  induction l with
  | nil => rfl
  | cons a l ih => simp [ih]

/-- DER definite-length encoding, as emitted by `encoding/asn1`'s marshaller:
short form below 128, otherwise `0x80 + k` followed by the minimal `k`-byte
big-endian value. -/
def encLen (n : Nat) : List Nat :=
  if n < 128 then [n] else (128 + byteLen n) :: natToBE (byteLen n) n

/-- DER definite-length decoding, mirroring the length half of Go's
`parseTagAndLength`: rejects the indefinite form `0x80`, superfluous leading
zero bytes, and long forms whose value would fit the short form. -/
def decLen (bs : List Nat) : Except String (Nat × List Nat) :=
  match bs with
  | [] => .error "truncated length"
  | b :: rest =>
    if b < 128 then .ok (b, rest)
    else if b = 128 then .error "indefinite length found (not DER)"
    else
      let numBytes := b - 128
      if rest.length < numBytes then .error "truncated length"
      else
        let digits := rest.take numBytes
        match digits with
        | [] => .error "truncated length"
        | d0 :: _ =>
          if d0 = 0 then .error "superfluous leading zeros in length"
          else
            let l := beToNat digits
            if l < 128 then .error "non-minimal length"
            else .ok (l, rest.drop numBytes)

theorem natToBE_head (k n : Nat) (hk : 1 ≤ k) :
    ∃ tl, natToBE k n = (n / pow8 (k - 1)) % 256 :: tl := by
  cases k with
  | zero => omega
  | succ k => exact ⟨natToBE k (n % pow8 k), rfl⟩

theorem decLen_encLen (n : Nat) (rest : List Nat) :
    decLen (encLen n ++ rest) = .ok (n, rest) := by
  by_cases h : n < 128
  · simp [encLen, decLen, h]
  · have hn0 : n ≠ 0 := by omega
    have hbl : 1 ≤ byteLen n := byteLen_pos n hn0
    have hlen : (natToBE (byteLen n) n).length = byteLen n := natToBE_length _ _
    have hb : ¬ (128 + byteLen n < 128) := by omega
    have hb' : ¬ (128 + byteLen n = 128) := by omega
    rw [encLen, if_neg h]
    simp only [List.cons_append, decLen]
    rw [if_neg hb, if_neg hb']
    have hnb : 128 + byteLen n - 128 = byteLen n := by omega
    rw [hnb]
    have htk := takeAppendLen (natToBE (byteLen n) n) rest
    rw [hlen] at htk
    have hdr := dropAppendLen (natToBE (byteLen n) n) rest
    rw [hlen] at hdr
    have hnottrunc : ¬ ((natToBE (byteLen n) n ++ rest).length < byteLen n) := by
      simp [List.length_append, hlen]
    obtain ⟨tl, htl⟩ := natToBE_head (byteLen n) n hbl
    have hpow : pow8 (byteLen n) = 256 * pow8 (byteLen n - 1) := by
      have h2 : byteLen n - 1 + 1 = byteLen n := by omega
      calc pow8 (byteLen n) = pow8 (byteLen n - 1 + 1) := by rw [h2]
        _ = 256 * pow8 (byteLen n - 1) := pow8_succ _
    have hd0 : (n / pow8 (byteLen n - 1)) % 256 ≠ 0 := by
      have hle : pow8 (byteLen n - 1) ≤ n := byteLen_le n hn0
      have hdivpos : 1 ≤ n / pow8 (byteLen n - 1) :=
        (Nat.one_le_div_iff (pow8_pos _)).2 hle
      have hlt : n < pow8 (byteLen n) := byteLen_lt n
      have hdivlt : n / pow8 (byteLen n - 1) < 256 := by
        rw [Nat.div_lt_iff_lt_mul (pow8_pos _)]
        omega
      rw [Nat.mod_eq_of_lt hdivlt]
      omega
    have hbe : beToNat ((n / pow8 (byteLen n - 1)) % 256 :: tl) = n := by
      rw [← htl]
      exact beToNat_natToBE _ _ (byteLen_lt n)
    rw [if_neg hnottrunc, htk, hdr, htl]
    simp [hd0, hbe, h]

/-- Result of Go's `parseTagAndLength`: class bits, constructed bit, tag
number and declared content length. -/
structure TL where
  cls : Nat
  compound : Bool
  tagNum : Nat
  len : Nat
  deriving Repr, DecidableEq

/-- Base-128 tag-number continuation parsing for high tag numbers, mirroring
Go's `parseBase128Int` (at most five groups, minimality of the first group,
31-bit cap). -/
def parseBase128 : List Nat → Nat → Nat → Except String (Nat × List Nat)
  | [], _, _ => .error "truncated base 128 integer"
  | b :: rest, shifted, acc =>
    if shifted = 5 then .error "base 128 integer too large"
    else
      let acc2 := acc * 128
      if acc2 = 0 ∧ b = 128 then .error "integer is not minimally encoded"
      else
        let acc3 := acc2 + b % 128
        if b < 128 then
          if acc3 > 2147483647 then .error "base 128 integer too large"
          else .ok (acc3, rest)
        else parseBase128 rest (shifted + 1) acc3

/-- Tag-and-length parsing, mirroring Go's `parseTagAndLength`: one identifier
byte (class, constructed bit, tag number, with base-128 continuation when the
low five bits are all set) followed by a DER definite length. -/
def parseTL (bs : List Nat) : Except String (TL × List Nat) :=
  match bs with
  | [] => .error "truncated tag"
  | b :: rest =>
    let cls := b / 64
    let compound : Bool := (b / 32) % 2 == 1
    let tag0 := b % 32
    if tag0 = 31 then
      match parseBase128 rest 0 0 with
      | .error e => .error e
      | .ok (tag, rest') =>
        if tag < 31 then .error "non-minimal tag"
        else
          match decLen rest' with
          | .error e => .error e
          | .ok (l, rest'') => .ok (⟨cls, compound, tag, l⟩, rest'')
    else
      match decLen rest with
      | .error e => .error e
      | .ok (l, rest') => .ok (⟨cls, compound, tag0, l⟩, rest')

/-- One DER element: identifier byte, definite length, content bytes. -/
def tlv (tag : Nat) (body : List Nat) : List Nat :=
  tag :: (encLen body.length ++ body)

theorem parseTL_tlv (t : Nat) (body rest : List Nat)
    (ht : t % 32 ≠ 31) :
    parseTL (tlv t body ++ rest) =
      .ok (⟨t / 64, (t / 32) % 2 == 1, t % 32, body.length⟩, body ++ rest) := by
  show parseTL (t :: (encLen body.length ++ body ++ rest)) = _
  simp only [parseTL, if_neg ht, List.append_assoc]
  rw [decLen_encLen]

/-- `2 ^ (8 * k - 1)`, the exclusive magnitude bound of a `k`-byte
two's-complement integer (`k ≥ 1`). -/
def intHalf (k : Nat) : Int := 2 ^ (8 * k - 1)

/-- Whether `v` is representable in `k` bytes of two's complement; this is
the bound Go's `int64Length` loop shrinks to. -/
def fits (k : Nat) (v : Int) : Bool := decide (-(intHalf k) ≤ v ∧ v < intHalf k)

/-- Minimal two's-complement byte width of `v`, as computed by Go's
`int64Length` (at most 8 for any `int64`). -/
def intLen (v : Int) : Nat :=
  if fits 1 v then 1 else if fits 2 v then 2 else if fits 3 v then 3
  else if fits 4 v then 4 else if fits 5 v then 5 else if fits 6 v then 6
  else if fits 7 v then 7 else 8

/-- Minimal big-endian two's-complement encoding of `v`, the content bytes
Go's `int64Encoder` writes for an ASN.1 INTEGER. -/
def intMinBytes (v : Int) : List Nat :=
  natToBE (intLen v) ((v % ((pow8 (intLen v) : Nat) : Int))).toNat

/-- The minimality test of Go's `checkInteger`: non-empty, and no redundant
leading `0x00` or `0xFF` byte. -/
def checkIntegerOK (bs : List Nat) : Bool :=
  match bs with
  | [] => false
  | [_] => true
  | b0 :: b1 :: _ => decide (¬ ((b0 = 0 ∧ b1 < 128) ∨ (b0 = 255 ∧ 128 ≤ b1)))

/-- ASN.1 INTEGER content parsing, mirroring Go's `parseInt64`:
`checkInteger`, the 8-byte size cap, then big-endian accumulation with sign
extension. -/
def parseAsn1Int (bs : List Nat) : Except String Int :=
  if checkIntegerOK bs = false then .error "integer not minimally-encoded"
  else if 8 < bs.length then .error "integer too large"
  else
    if ((beToNat bs : Nat) : Int) < intHalf bs.length then .ok ((beToNat bs : Nat) : Int)
    else .ok (((beToNat bs : Nat) : Int) - ((pow8 bs.length : Nat) : Int))

theorem intHalf_pos (k : Nat) : 0 < intHalf k := by
  unfold intHalf
  positivity

theorem pow8_cast_eq (k : Nat) (hk : 1 ≤ k) :
    ((pow8 k : Nat) : Int) = 2 * intHalf k := by
  unfold pow8 intHalf
  have h : 8 * k = (8 * k - 1) + 1 := by omega
  rw [h]
  push_cast [pow_succ]
  ring

theorem intHalf_cast (k : Nat) : ((2 ^ (8 * k - 1) : Nat) : Int) = intHalf k := by
  unfold intHalf
  push_cast
  rfl

theorem parseAsn1Int_natToBE (k : Nat) (v : Int) (hk1 : 1 ≤ k) (hk8 : k ≤ 8)
    (hfit : fits k v = true)
    (hmin : k = 1 ∨ fits (k - 1) v = false) :
    parseAsn1Int (natToBE k ((v % ((pow8 k : Nat) : Int))).toNat) = .ok v := by
  have hMpos : (0 : Int) < ((pow8 k : Nat) : Int) := by exact_mod_cast pow8_pos k
  have hhalf := intHalf_pos k
  have h2half : ((pow8 k : Nat) : Int) = 2 * intHalf k := pow8_cast_eq k hk1
  rw [fits, decide_eq_true_iff] at hfit
  obtain ⟨hlo, hhi⟩ := hfit
  set N : Nat := ((v % ((pow8 k : Nat) : Int))).toNat with hNdef
  have hNcast : (N : Int) = v % ((pow8 k : Nat) : Int) :=
    Int.toNat_of_nonneg (Int.emod_nonneg v (by omega))
  have hNlt : N < pow8 k := by
    have h1 := Int.emod_lt_of_pos v hMpos
    have : (N : Int) < ((pow8 k : Nat) : Int) := by rw [hNcast]; exact h1
    exact_mod_cast this
  have hNval : (N : Int) = v ∨ ((N : Int) = v + ((pow8 k : Nat) : Int) ∧ v < 0) := by
    rcases le_or_lt 0 v with hpos | hneg
    · left
      rw [hNcast, Int.emod_eq_of_lt hpos (by omega)]
    · right
      refine ⟨?_, hneg⟩
      rw [hNcast]
      have hswap : v % ((pow8 k : Nat) : Int) = (v + ((pow8 k : Nat) : Int)) % ((pow8 k : Nat) : Int) := by
        conv_rhs => rw [show v + ((pow8 k : Nat) : Int) = v + ((pow8 k : Nat) : Int) * 1 by ring]
        rw [Int.add_mul_emod_self_left]
      rw [hswap, Int.emod_eq_of_lt (by omega) (by omega)]
  have hlen : (natToBE k N).length = k := natToBE_length k N
  have hchk : checkIntegerOK (natToBE k N) = true := by
    rcases Nat.lt_or_ge k 2 with hk2 | hk2
    · have : k = 1 := by omega
      subst this
      simp [natToBE, checkIntegerOK]
    · obtain ⟨k', rfl⟩ : ∃ k', k = k' + 2 := ⟨k - 2, by omega⟩
      have hminf : fits (k' + 1) v = false := by
        rcases hmin with h | h
        · omega
        · simpa using h
      rw [fits] at hminf
      have hminp : v < -(intHalf (k' + 1)) ∨ intHalf (k' + 1) ≤ v := by
        have := of_decide_eq_false hminf
        by_contra hc
        push_neg at hc
        exact this ⟨by omega, by omega⟩
      have hp1 : (2 : Nat) ^ (8 * (k' + 1) - 1) = 128 * pow8 k' := by
        unfold pow8
        have h : 8 * (k' + 1) - 1 = 7 + 8 * k' := by omega
        rw [h, pow_add]
        norm_num
      have hp2 : (2 : Nat) ^ (8 * (k' + 2) - 1) = 32768 * pow8 k' := by
        unfold pow8
        have h : 8 * (k' + 2) - 1 = 15 + 8 * k' := by omega
        rw [h, pow_add]
        norm_num
      have hp3 : pow8 (k' + 2) = 65536 * pow8 k' := by
        unfold pow8
        have h : 8 * (k' + 2) = 16 + 8 * k' := by omega
        rw [h, pow_add]
        norm_num
      have hp4 : pow8 (k' + 1) = 256 * pow8 k' := pow8_succ k'
      have hPpos : 0 < pow8 k' := pow8_pos k'
      set P : Nat := pow8 k' with hPdef
      set T : Nat := N / P with hTdef
      have hTlo : 128 ≤ T := by
        rcases hNval with hNv | ⟨hNv, hvneg⟩
        · have h0v : (0 : Int) ≤ v := by
            rw [← hNv]
            exact Int.ofNat_nonneg N
          have hvlo : intHalf (k' + 1) ≤ v := by
            rcases hminp with h | h
            · exfalso
              have := intHalf_pos (k' + 1)
              omega
            · exact h
          have hNlo : 128 * P ≤ N := by
            have hcast : ((2 ^ (8 * (k' + 1) - 1) : Nat) : Int) = intHalf (k' + 1) :=
              intHalf_cast (k' + 1)
            have hint : ((2 ^ (8 * (k' + 1) - 1) : Nat) : Int) ≤ (N : Int) := by
              rw [hcast, hNv]
              exact hvlo
            have hnat : (2 ^ (8 * (k' + 1) - 1) : Nat) ≤ N := by exact_mod_cast hint
            rw [hp1] at hnat
            exact hnat
          rw [hTdef]
          exact (Nat.le_div_iff_mul_le hPpos).2 (by omega)
        · have hNlo : 32768 * P ≤ N := by
            have hcast2 : ((2 ^ (8 * (k' + 2) - 1) : Nat) : Int) = intHalf (k' + 2) :=
              intHalf_cast (k' + 2)
            have hMc : ((pow8 (k' + 2) : Nat) : Int) = 2 * intHalf (k' + 2) :=
              pow8_cast_eq (k' + 2) (by omega)
            have hint : intHalf (k' + 2) ≤ (N : Int) := by
              rw [hNv, hMc]
              have := hlo
              omega
            have hnat : (2 ^ (8 * (k' + 2) - 1) : Nat) ≤ N := by
              rw [← hcast2] at hint
              exact_mod_cast hint
            rw [hp2] at hnat
            exact hnat
          rw [hTdef]
          have h32 := (Nat.le_div_iff_mul_le hPpos).2 hNlo
          omega
      have hThi : T < 65408 := by
        rcases hNval with hNv | ⟨hNv, hvneg⟩
        · have hNhi : N < 32768 * P := by
            have hcast2 : ((2 ^ (8 * (k' + 2) - 1) : Nat) : Int) = intHalf (k' + 2) :=
              intHalf_cast (k' + 2)
            have hint : (N : Int) < intHalf (k' + 2) := by
              rw [hNv]
              exact hhi
            rw [← hcast2] at hint
            have hnat : N < (2 ^ (8 * (k' + 2) - 1) : Nat) := by exact_mod_cast hint
            rw [hp2] at hnat
            exact hnat
          have := (Nat.div_lt_iff_lt_mul hPpos).2 hNhi
          omega
        · have hvhi : v < -(intHalf (k' + 1)) := by
            rcases hminp with h | h
            · exact h
            · exfalso
              have := intHalf_pos (k' + 1)
              omega
          have hNhi : N < 65408 * P := by
            have hcast1 : ((2 ^ (8 * (k' + 1) - 1) : Nat) : Int) = intHalf (k' + 1) :=
              intHalf_cast (k' + 1)
            have hMc : ((pow8 (k' + 2) : Nat) : Int) = ((65536 * P : Nat) : Int) := by
              rw [hp3]
            have hPc : ((2 ^ (8 * (k' + 1) - 1) : Nat) : Int) = ((128 * P : Nat) : Int) := by
              rw [hp1]
            have hint : (N : Int) < ((65408 * P : Nat) : Int) := by
              rw [hNv, hMc] at *
              rw [hPc] at hcast1
              push_cast at *
              omega
            exact_mod_cast hint
          have := (Nat.div_lt_iff_lt_mul hPpos).2 hNhi
          omega
      have hshape : natToBE (k' + 2) N =
          (N / pow8 (k' + 1)) % 256 :: ((N % pow8 (k' + 1)) / P) % 256
            :: natToBE k' ((N % pow8 (k' + 1)) % P) := by
        rfl
      have hb0 : (N / pow8 (k' + 1)) % 256 = T / 256 := by
        rw [hp4]
        have hdd : N / (256 * P) = T / 256 := by
          rw [hTdef, Nat.div_div_eq_div_mul, Nat.mul_comm P 256]
        rw [hdd]
        apply Nat.mod_eq_of_lt
        omega
      have hb1 : ((N % pow8 (k' + 1)) / P) % 256 = T % 256 := by
        rw [hp4, Nat.mul_comm 256 P, Nat.mod_mul_right_div_self, ← hTdef]
        omega
      rw [hshape, hb0, hb1]
      simp only [checkIntegerOK, decide_eq_true_iff]
      omega
  have hbe : beToNat (natToBE k N) = N := beToNat_natToBE k N hNlt
  rw [parseAsn1Int, hchk, hlen, hbe]
  rw [if_neg (by simp)]
  rw [if_neg (show ¬ 8 < k by omega)]
  rcases hNval with hNv | ⟨hNv, hvneg⟩
  · rw [if_pos (by rw [hNv]; exact hhi), hNv]
  · have hge : ¬ ((N : Int) < intHalf k) := by
      rw [hNv, h2half]
      omega
    rw [if_neg hge, hNv, h2half]
    congr 1
    ring

theorem intLen_spec (v : Int) (h1 : -(intHalf 8) ≤ v) (h2 : v < intHalf 8) :
    1 ≤ intLen v ∧ intLen v ≤ 8 ∧ fits (intLen v) v = true ∧
      (intLen v = 1 ∨ fits (intLen v - 1) v = false) := by
  have h8 : fits 8 v = true := by
    rw [fits, decide_eq_true_iff]
    exact ⟨h1, h2⟩
  rw [intLen]
  by_cases f1 : fits 1 v = true
  · rw [if_pos f1]
    exact ⟨by omega, by omega, f1, Or.inl rfl⟩
  · rw [if_neg f1]
    by_cases f2 : fits 2 v = true
    · rw [if_pos f2]
      exact ⟨by omega, by omega, f2, Or.inr (by simpa using f1)⟩
    · rw [if_neg f2]
      by_cases f3 : fits 3 v = true
      · rw [if_pos f3]
        exact ⟨by omega, by omega, f3, Or.inr (by simpa using f2)⟩
      · rw [if_neg f3]
        by_cases f4 : fits 4 v = true
        · rw [if_pos f4]
          exact ⟨by omega, by omega, f4, Or.inr (by simpa using f3)⟩
        · rw [if_neg f4]
          by_cases f5 : fits 5 v = true
          · rw [if_pos f5]
            exact ⟨by omega, by omega, f5, Or.inr (by simpa using f4)⟩
          · rw [if_neg f5]
            by_cases f6 : fits 6 v = true
            · rw [if_pos f6]
              exact ⟨by omega, by omega, f6, Or.inr (by simpa using f5)⟩
            · rw [if_neg f6]
              by_cases f7 : fits 7 v = true
              · rw [if_pos f7]
                exact ⟨by omega, by omega, f7, Or.inr (by simpa using f6)⟩
              · rw [if_neg f7]
                exact ⟨by omega, by omega, h8, Or.inr (by simpa using f7)⟩

theorem parseAsn1Int_intMinBytes (v : Int) (h1 : -(intHalf 8) ≤ v) (h2 : v < intHalf 8) :
    parseAsn1Int (intMinBytes v) = .ok v := by
  obtain ⟨ha, hb, hc, hd⟩ := intLen_spec v h1 h2
  rw [intMinBytes]
  exact parseAsn1Int_natToBE (intLen v) v ha hb hc hd

/-- Byte-level UTF-8 validity, the check Go's `asn1.parseUTF8String` applies
via `utf8.Valid`: RFC 3629 ranges, rejecting overlong forms, surrogates and
values above U+10FFFF. -/
def validUTF8 : List Nat → Bool
  | [] => true
  | b :: rest =>
    if b < 128 then validUTF8 rest
    else if 194 ≤ b ∧ b ≤ 223 then
      match rest with
      | c1 :: rest1 => if 128 ≤ c1 ∧ c1 ≤ 191 then validUTF8 rest1 else false
      | [] => false
    else if b = 224 then
      match rest with
      | c1 :: c2 :: rest2 =>
        if (160 ≤ c1 ∧ c1 ≤ 191) ∧ (128 ≤ c2 ∧ c2 ≤ 191) then validUTF8 rest2
        else false
      | _ => false
    else if 225 ≤ b ∧ b ≤ 236 then
      match rest with
      | c1 :: c2 :: rest2 =>
        if (128 ≤ c1 ∧ c1 ≤ 191) ∧ (128 ≤ c2 ∧ c2 ≤ 191) then validUTF8 rest2
        else false
      | _ => false
    else if b = 237 then
      match rest with
      | c1 :: c2 :: rest2 =>
        if (128 ≤ c1 ∧ c1 ≤ 159) ∧ (128 ≤ c2 ∧ c2 ≤ 191) then validUTF8 rest2
        else false
      | _ => false
    else if 238 ≤ b ∧ b ≤ 239 then
      match rest with
      | c1 :: c2 :: rest2 =>
        if (128 ≤ c1 ∧ c1 ≤ 191) ∧ (128 ≤ c2 ∧ c2 ≤ 191) then validUTF8 rest2
        else false
      | _ => false
    else if b = 240 then
      match rest with
      | c1 :: c2 :: c3 :: rest3 =>
        if (144 ≤ c1 ∧ c1 ≤ 191) ∧ (128 ≤ c2 ∧ c2 ≤ 191) ∧ (128 ≤ c3 ∧ c3 ≤ 191) then
          validUTF8 rest3
        else false
      | _ => false
    else if 241 ≤ b ∧ b ≤ 243 then
      match rest with
      | c1 :: c2 :: c3 :: rest3 =>
        if (128 ≤ c1 ∧ c1 ≤ 191) ∧ (128 ≤ c2 ∧ c2 ≤ 191) ∧ (128 ≤ c3 ∧ c3 ≤ 191) then
          validUTF8 rest3
        else false
      | _ => false
    else if b = 244 then
      match rest with
      | c1 :: c2 :: c3 :: rest3 =>
        if (128 ≤ c1 ∧ c1 ≤ 143) ∧ (128 ≤ c2 ∧ c2 ≤ 191) ∧ (128 ≤ c3 ∧ c3 ≤ 191) then
          validUTF8 rest3
        else false
      | _ => false
    else false

example : validUTF8 [104, 105, 195, 169] = true := by decide

example : validUTF8 [237, 160, 128] = false := by decide

/-- The `RDCleanPathPDU` Go struct. Go string fields are their byte lists
(Go's zero value `""` is `[]` and is what `asn1` treats as absent); Go
`[]byte` / `[][]byte` fields distinguish `nil` (`none`, absent on the wire)
from a present, possibly empty, slice (`some`). -/
structure RDCleanPathPDU where
  Version : Int
  Error : Option (List Nat) := none
  Destination : List Nat := []
  ProxyAuth : List Nat := []
  ServerAuth : List Nat := []
  PreconnectionBlob : List Nat := []
  X224ConnectionPDU : Option (List Nat) := none
  ServerCertChain : Option (List (List Nat)) := none
  ServerAddr : List Nat := []
  deriving Repr, DecidableEq

/-- Inner SEQUENCE OF OCTET STRING content for the certificate chain. -/
def encCerts (cs : List (List Nat)) : List Nat :=
  cs.foldr (fun c acc => tlv 4 c ++ acc) []

/-- Optional UTF8String field: omitted exactly when the Go string is its
zero value `""`; otherwise an explicit context tag `0xA0 | tagN` wrapping a
universal UTF8String. -/
def encOptStr (tagN : Nat) (s : List Nat) : List Nat :=
  if s = [] then [] else tlv (160 + tagN) (tlv 12 s)

/-- Optional OCTET STRING field: omitted exactly when the Go slice is `nil`. -/
def encOptOctet (tagN : Nat) (e : Option (List Nat)) : List Nat :=
  match e with
  | some b => tlv (160 + tagN) (tlv 4 b)
  | none => []

/-- Optional certificate-chain field: omitted exactly when the Go slice is
`nil`; otherwise an explicit tag around a SEQUENCE OF OCTET STRING. -/
def encOptCerts (tagN : Nat) (e : Option (List (List Nat))) : List Nat :=
  match e with
  | some cs => tlv (160 + tagN) (tlv 48 (encCerts cs))
  | none => []

/-- `asn1.Marshal` on `RDCleanPathPDU`: outer SEQUENCE of explicit
context-tagged fields in struct order; an optional field is omitted exactly
when it holds its Go zero value (`""` for strings, `nil` for slices). -/
def encodePDU (m : RDCleanPathPDU) : List Nat :=
  tlv 48 (
    tlv (160 + 0) (tlv 2 (intMinBytes m.Version))
    ++ (encOptOctet 1 m.Error
    ++ (encOptStr 2 m.Destination
    ++ (encOptStr 3 m.ProxyAuth
    ++ (encOptStr 4 m.ServerAuth
    ++ (encOptStr 5 m.PreconnectionBlob
    ++ (encOptOctet 6 m.X224ConnectionPDU
    ++ (encOptCerts 7 m.ServerCertChain
    ++ encOptStr 9 m.ServerAddr))))))))

/-- Parse one universal-class element of the expected tag and constructed
bit from the stream, returning its content and the remaining stream. This is
the shared shape of Go's `parseField` cases: parse tag-and-length, check the
declared length against the remaining buffer, then match the tag. -/
def parseUniversal (tag : Nat) (compound : Bool) (bs : List Nat) :
    Except String (List Nat × List Nat) :=
  match parseTL bs with
  | .error e => .error e
  | .ok (t, rest) =>
    if rest.length < t.len then .error "data truncated"
    else if t.cls = 0 ∧ t.tagNum = tag ∧ t.compound = compound then
      .ok (rest.take t.len, rest.drop t.len)
    else .error "tags don't match"

/-- INTEGER field body: Go's `parseInt64` applied to the element content. -/
def parseIntStream (bs : List Nat) : Except String (Int × List Nat) :=
  match parseUniversal 2 false bs with
  | .error e => .error e
  | .ok (content, rest) =>
    match parseAsn1Int content with
    | .error e => .error e
    | .ok v => .ok (v, rest)

/-- OCTET STRING field body (Go copies the content bytes unchecked). -/
def parseOctetStream (bs : List Nat) : Except String (List Nat × List Nat) :=
  parseUniversal 4 false bs

/-- UTF8String field body: content bytes plus Go's `utf8.Valid` check. -/
def parseUTF8Stream (bs : List Nat) : Except String (List Nat × List Nat) :=
  match parseUniversal 12 false bs with
  | .error e => .error e
  | .ok (content, rest) =>
    if validUTF8 content then .ok (content, rest)
    else .error "invalid UTF-8 string"

/-- SEQUENCE OF OCTET STRING content, mirroring Go's `parseSequenceOf`: the
fuel argument only bounds the recursion and is supplied as more than the
content length, which one element (at least two bytes) always consumes
faster than. -/
def parseSeqOfOctets : Nat → List Nat → Except String (List (List Nat))
  | _, [] => .ok []
  | 0, _ :: _ => .error "fuel exhausted"
  | fuel + 1, bs =>
    match parseOctetStream bs with
    | .error e => .error e
    | .ok (c, rest) =>
      match parseSeqOfOctets fuel rest with
      | .error e => .error e
      | .ok cs => .ok (c :: cs)

/-- Certificate-chain field body: a universal SEQUENCE whose sliced content
is parsed as a sequence of OCTET STRINGs. -/
def parseCertsStream (bs : List Nat) : Except String (List (List Nat) × List Nat) :=
  match parseUniversal 16 true bs with
  | .error e => .error e
  | .ok (content, rest) =>
    match parseSeqOfOctets (content.length + 1) content with
    | .error e => .error e
    | .ok cs => .ok (cs, rest)

/-- Explicitly tagged required field, as in Go's `parseField` for a
non-optional field: the context-specific wrapper must match (constructed,
or empty — but an empty explicit wrapper is an error for these field
types), then the inner element is parsed from the stream. -/
def parseExplicitRequired {A : Type} (tagN : Nat)
    (inner : List Nat → Except String (A × List Nat)) (bs : List Nat) :
    Except String (A × List Nat) :=
  match parseTL bs with
  | .error e => .error e
  | .ok (t, rest) =>
    if rest.length < t.len then .error "data truncated"
    else if t.cls = 2 ∧ t.tagNum = tagN ∧ (t.len = 0 ∨ t.compound = true) then
      if t.len = 0 then .error "zero length explicit tag"
      else inner rest
    else .error "tags don't match"

/-- Explicitly tagged optional field: at end of input the field is absent;
a parsed wrapper with a different tag leaves the stream untouched and marks
the field absent, mirroring Go's optional-field backtracking. -/
def parseExplicitOptional {A : Type} (tagN : Nat)
    (inner : List Nat → Except String (A × List Nat)) (bs : List Nat) :
    Except String (Option A × List Nat) :=
  match bs with
  | [] => .ok (none, [])
  | _ :: _ =>
    match parseTL bs with
    | .error e => .error e
    | .ok (t, rest) =>
      if rest.length < t.len then .error "data truncated"
      else if t.cls = 2 ∧ t.tagNum = tagN ∧ (t.len = 0 ∨ t.compound = true) then
        if t.len = 0 then .error "zero length explicit tag"
        else
          match inner rest with
          | .error e => .error e
          | .ok (v, rest2) => .ok (some v, rest2)
      else .ok (none, bs)

/-- `asn1.Unmarshal` on `RDCleanPathPDU`: outer universal SEQUENCE (content
sliced by its declared length, trailing bytes after it ignored as Go's
`Unmarshal` does), then the fields in struct order; leftover bytes inside
the SEQUENCE are allowed, as Go permits structs extended with new fields. -/
def decodePDU (bs : List Nat) : Except String RDCleanPathPDU :=
  match parseTL bs with
  | .error e => .error e
  | .ok (t, rest) =>
    if rest.length < t.len then .error "data truncated"
    else if t.cls = 0 ∧ t.tagNum = 16 ∧ t.compound = true then
      match parseExplicitRequired 0 parseIntStream (rest.take t.len) with
      | .error e => .error e
      | .ok (version, r1) =>
        match parseExplicitOptional 1 parseOctetStream r1 with
        | .error e => .error e
        | .ok (errF, r2) =>
          match parseExplicitOptional 2 parseUTF8Stream r2 with
          | .error e => .error e
          | .ok (destF, r3) =>
            match parseExplicitOptional 3 parseUTF8Stream r3 with
            | .error e => .error e
            | .ok (proxyAuthF, r4) =>
              match parseExplicitOptional 4 parseUTF8Stream r4 with
              | .error e => .error e
              | .ok (serverAuthF, r5) =>
                match parseExplicitOptional 5 parseUTF8Stream r5 with
                | .error e => .error e
                | .ok (blobF, r6) =>
                  match parseExplicitOptional 6 parseOctetStream r6 with
                  | .error e => .error e
                  | .ok (x224F, r7) =>
                    match parseExplicitOptional 7 parseCertsStream r7 with
                    | .error e => .error e
                    | .ok (certsF, r8) =>
                      match parseExplicitOptional 9 parseUTF8Stream r8 with
                      | .error e => .error e
                      | .ok (addrF, _) =>
                        .ok { Version := version
                              Error := errF
                              Destination := destF.getD []
                              ProxyAuth := proxyAuthF.getD []
                              ServerAuth := serverAuthF.getD []
                              PreconnectionBlob := blobF.getD []
                              X224ConnectionPDU := x224F
                              ServerCertChain := certsF
                              ServerAddr := addrF.getD [] }
    else .error "tags don't match"

instance instDecEqExcept {E A : Type} [DecidableEq E] [DecidableEq A] :
    DecidableEq (Except E A)
  | .error e, .error f =>
    if h : e = f then .isTrue (by rw [h])
    else .isFalse (fun hc => h (by cases hc; rfl))
  | .error _, .ok _ => .isFalse (fun hc => Except.noConfusion hc)
  | .ok _, .error _ => .isFalse (fun hc => Except.noConfusion hc)
  | .ok a, .ok b =>
    if h : a = b then .isTrue (by rw [h])
    else .isFalse (fun hc => h (by cases hc; rfl))

theorem parseUniversal_enc (tag : Nat) (compound : Bool) (u : Nat)
    (body rest : List Nat) (h31 : u % 32 ≠ 31) (hcls : u / 64 = 0)
    (htag : u % 32 = tag) (hcomp : ((u / 32) % 2 == 1) = compound) :
    parseUniversal tag compound (tlv u body ++ rest) = .ok (body, rest) := by
  simp only [parseUniversal, parseTL_tlv u body rest h31]
  rw [if_neg (show ¬ (body ++ rest).length < body.length by simp)]
  rw [if_pos ⟨hcls, htag, hcomp⟩]
  rw [takeAppendLen body rest, dropAppendLen body rest]

theorem parseIntStream_enc (v : Int) (rest : List Nat)
    (h1 : -(intHalf 8) ≤ v) (h2 : v < intHalf 8) :
    parseIntStream (tlv 2 (intMinBytes v) ++ rest) = .ok (v, rest) := by
  simp only [parseIntStream,
    parseUniversal_enc 2 false 2 (intMinBytes v) rest (by decide) (by decide) (by decide) (by decide),
    parseAsn1Int_intMinBytes v h1 h2]

theorem parseOctetStream_enc (b rest : List Nat) :
    parseOctetStream (tlv 4 b ++ rest) = .ok (b, rest) := by
  exact parseUniversal_enc 4 false 4 b rest (by decide) (by decide) (by decide) (by decide)

theorem parseUTF8Stream_enc (s rest : List Nat) (hs : validUTF8 s = true) :
    parseUTF8Stream (tlv 12 s ++ rest) = .ok (s, rest) := by
  simp only [parseUTF8Stream,
    parseUniversal_enc 12 false 12 s rest (by decide) (by decide) (by decide) (by decide), hs,
    if_true]

theorem encCerts_len (cs : List (List Nat)) : cs.length ≤ (encCerts cs).length := by
  induction cs with
  | nil => simp [encCerts]
  | cons c cs ih =>
    have : encCerts (c :: cs) = tlv 4 c ++ encCerts cs := rfl
    rw [this]
    simp only [List.length_append, List.length_cons]
    have : 1 ≤ (tlv 4 c).length := by simp [tlv]
    omega

theorem parseSeqOfOctets_enc (cs : List (List Nat)) (fuel : Nat)
    (hf : cs.length < fuel) :
    parseSeqOfOctets fuel (encCerts cs) = .ok cs := by
  induction cs generalizing fuel with
  | nil => cases fuel <;> simp [encCerts, parseSeqOfOctets]
  | cons c cs ih =>
    obtain ⟨f, rfl⟩ : ∃ f, fuel = f + 1 := ⟨fuel - 1, by omega⟩
    have hE : encCerts (c :: cs) = tlv 4 c ++ encCerts cs := rfl
    have hcons : encCerts (c :: cs) = 4 :: (encLen c.length ++ c ++ encCerts cs) := by
      rw [hE]
      simp [tlv]
    rw [hcons]
    simp only [parseSeqOfOctets]
    have hback : (4 : Nat) :: (encLen c.length ++ c ++ encCerts cs)
        = tlv 4 c ++ encCerts cs := by
      simp [tlv]
    rw [hback, parseOctetStream_enc c (encCerts cs)]
    have hcf : cs.length < f := by
      simp at hf
      omega
    simp [ih f hcf]

theorem parseCertsStream_enc (cs : List (List Nat)) (rest : List Nat) :
    parseCertsStream (tlv 48 (encCerts cs) ++ rest) = .ok (cs, rest) := by
  simp only [parseCertsStream,
    parseUniversal_enc 16 true 48 (encCerts cs) rest (by decide) (by decide) (by decide) (by decide)]
  rw [parseSeqOfOctets_enc cs ((encCerts cs).length + 1)
    (by have := encCerts_len cs; omega)]

theorem tlv_ne_nil (tag : Nat) (body : List Nat) : tlv tag body ≠ [] := by
  simp [tlv]

theorem parseExplicitRequired_enc {A : Type} (tagN : Nat)
    (inner : List Nat → Except String (A × List Nat)) (v : A) (ib rest : List Nat)
    (hib : ib ≠ []) (h9 : tagN ≤ 9)
    (hinner : inner (ib ++ rest) = .ok (v, rest)) :
    parseExplicitRequired tagN inner (tlv (160 + tagN) ib ++ rest) = .ok (v, rest) := by
  have h31 : (160 + tagN) % 32 ≠ 31 := by omega
  simp only [parseExplicitRequired, parseTL_tlv (160 + tagN) ib rest h31]
  rw [if_neg (show ¬ (ib ++ rest).length < ib.length by simp)]
  have hcls : (160 + tagN) / 64 = 2 := by omega
  have htag : (160 + tagN) % 32 = tagN := by omega
  have hdiv : (160 + tagN) / 32 = 5 := by omega
  have hcomp : (((160 + tagN) / 32) % 2 == 1) = true := by
    rw [hdiv]
    rfl
  rw [if_pos ⟨hcls, htag, Or.inr hcomp⟩]
  have hlen0 : ¬ ib.length = 0 := by
    cases ib with
    | nil => exact absurd rfl hib
    | cons a l => simp
  rw [if_neg hlen0, hinner]

theorem parseExplicitOptional_present {A : Type} (tagN : Nat)
    (inner : List Nat → Except String (A × List Nat)) (v : A) (ib rest rest2 : List Nat)
    (hib : ib ≠ []) (h9 : tagN ≤ 9)
    (hinner : inner (ib ++ rest) = .ok (v, rest2)) :
    parseExplicitOptional tagN inner (tlv (160 + tagN) ib ++ rest) = .ok (some v, rest2) := by
  have hconsform : tlv (160 + tagN) ib ++ rest
      = (160 + tagN) :: (encLen ib.length ++ ib ++ rest) := by
    simp [tlv]
  rw [hconsform]
  simp only [parseExplicitOptional]
  rw [← hconsform]
  simp only [parseTL_tlv (160 + tagN) ib rest (by omega)]
  rw [if_neg (show ¬ (ib ++ rest).length < ib.length by simp)]
  have hcls : (160 + tagN) / 64 = 2 := by omega
  have htag : (160 + tagN) % 32 = tagN := by omega
  have hdiv : (160 + tagN) / 32 = 5 := by omega
  have hcomp : (((160 + tagN) / 32) % 2 == 1) = true := by
    rw [hdiv]
    rfl
  rw [if_pos ⟨hcls, htag, Or.inr hcomp⟩]
  have hlen0 : ¬ ib.length = 0 := by
    cases ib with
    | nil => exact absurd rfl hib
    | cons a l => simp
  rw [if_neg hlen0, hinner]

/-- The remainder of an encoded field sequence: either empty or beginning
with a context-tagged element whose tag number is at least `low` (and at
most 9, the largest tag of the struct). -/
def goodTail (low : Nat) (bs : List Nat) : Prop :=
  bs = [] ∨ ∃ n ib rest, low ≤ n ∧ n ≤ 9 ∧ bs = tlv (160 + n) ib ++ rest

theorem goodTail_nil (low : Nat) : goodTail low [] := Or.inl rfl

theorem goodTail_of_le {low1 low2 : Nat} {bs : List Nat}
    (h : goodTail low1 bs) (hle : low2 ≤ low1) : goodTail low2 bs := by
  rcases h with h | ⟨n, ib, rest, h1, h2, h3⟩
  · exact Or.inl h
  · exact Or.inr ⟨n, ib, rest, by omega, h2, h3⟩

theorem goodTail_tlv (low n : Nat) (ib rest : List Nat) (h1 : low ≤ n) (h2 : n ≤ 9) :
    goodTail low (tlv (160 + n) ib ++ rest) := Or.inr ⟨n, ib, rest, h1, h2, rfl⟩

theorem parseExplicitOptional_skip {A : Type} (tagN : Nat)
    (inner : List Nat → Except String (A × List Nat)) (bs : List Nat)
    (hg : goodTail (tagN + 1) bs) :
    parseExplicitOptional tagN inner bs = .ok (none, bs) := by
  rcases hg with rfl | ⟨n, ib, rest, h1, h2, rfl⟩
  · rfl
  · have hconsform : tlv (160 + n) ib ++ rest
        = (160 + n) :: (encLen ib.length ++ ib ++ rest) := by
      simp [tlv]
    rw [hconsform]
    simp only [parseExplicitOptional]
    rw [← hconsform]
    simp only [parseTL_tlv (160 + n) ib rest (by omega)]
    rw [if_neg (show ¬ (ib ++ rest).length < ib.length by simp)]
    have htag : (160 + n) % 32 = n := by omega
    rw [if_neg]
    intro ⟨hc, ht, _⟩
    rw [htag] at ht
    omega

theorem stepOptOctet (tagN : Nat) (h9 : tagN ≤ 9) (e : Option (List Nat))
    (rest : List Nat) (hg : goodTail (tagN + 1) rest) :
    parseExplicitOptional tagN parseOctetStream (encOptOctet tagN e ++ rest)
      = .ok (e, rest) := by
  cases e with
  | none =>
    simpa [encOptOctet] using parseExplicitOptional_skip tagN parseOctetStream rest hg
  | some b =>
    exact parseExplicitOptional_present tagN parseOctetStream b (tlv 4 b) rest rest
      (tlv_ne_nil 4 b) h9 (parseOctetStream_enc b rest)

theorem stepOptUTF8 (tagN : Nat) (h9 : tagN ≤ 9) (s rest : List Nat)
    (hs : validUTF8 s = true) (hg : goodTail (tagN + 1) rest) :
    parseExplicitOptional tagN parseUTF8Stream (encOptStr tagN s ++ rest)
      = .ok ((if s = [] then none else some s), rest) := by
  by_cases hempty : s = []
  · rw [encOptStr, if_pos hempty, if_pos hempty]
    simpa using parseExplicitOptional_skip tagN parseUTF8Stream rest hg
  · rw [encOptStr, if_neg hempty, if_neg hempty]
    exact parseExplicitOptional_present tagN parseUTF8Stream s (tlv 12 s) rest rest
      (tlv_ne_nil 12 s) h9 (parseUTF8Stream_enc s rest hs)

theorem stepOptCerts (tagN : Nat) (h9 : tagN ≤ 9) (e : Option (List (List Nat)))
    (rest : List Nat) (hg : goodTail (tagN + 1) rest) :
    parseExplicitOptional tagN parseCertsStream (encOptCerts tagN e ++ rest)
      = .ok (e, rest) := by
  cases e with
  | none =>
    simpa [encOptCerts] using parseExplicitOptional_skip tagN parseCertsStream rest hg
  | some cs =>
    exact parseExplicitOptional_present tagN parseCertsStream cs (tlv 48 (encCerts cs))
      rest rest (tlv_ne_nil 48 _) h9 (parseCertsStream_enc cs rest)

theorem goodTail_encOptStr {low tagN : Nat} (s rest : List Nat)
    (h1 : low ≤ tagN) (h2 : tagN ≤ 9) (hr : goodTail low rest) :
    goodTail low (encOptStr tagN s ++ rest) := by
  rw [encOptStr]
  by_cases h : s = []
  · rw [if_pos h]
    simpa using hr
  · rw [if_neg h]
    exact goodTail_tlv low tagN _ rest h1 h2

theorem goodTail_encOptOctet {low tagN : Nat} (e : Option (List Nat)) (rest : List Nat)
    (h1 : low ≤ tagN) (h2 : tagN ≤ 9) (hr : goodTail low rest) :
    goodTail low (encOptOctet tagN e ++ rest) := by
  cases e with
  | none => simpa [encOptOctet] using hr
  | some b => exact goodTail_tlv low tagN _ rest h1 h2

theorem goodTail_encOptCerts {low tagN : Nat} (e : Option (List (List Nat))) (rest : List Nat)
    (h1 : low ≤ tagN) (h2 : tagN ≤ 9) (hr : goodTail low rest) :
    goodTail low (encOptCerts tagN e ++ rest) := by
  cases e with
  | none => simpa [encOptCerts] using hr
  | some cs => exact goodTail_tlv low tagN _ rest h1 h2

theorem parseTL_enc48 (body : List Nat) :
    parseTL (tlv 48 body) = .ok (⟨0, true, 16, body.length⟩, body) := by
  have h := parseTL_tlv 48 body [] (by decide)
  simpa using h

theorem optGetD_if (s : List Nat) :
    (if s = [] then (none : Option (List Nat)) else some s).getD [] = s := by
  by_cases h : s = [] <;> simp [h]

/-- Well-formed PDU values: the version fits Go's `int64`, and the string
fields are valid UTF-8 (invalid UTF-8 would be rejected by Go's decoder, so
such a struct cannot round-trip). -/
def WFPdu (m : RDCleanPathPDU) : Prop :=
  -(intHalf 8) ≤ m.Version ∧ m.Version < intHalf 8 ∧
  validUTF8 m.Destination = true ∧ validUTF8 m.ProxyAuth = true ∧
  validUTF8 m.ServerAuth = true ∧ validUTF8 m.PreconnectionBlob = true ∧
  validUTF8 m.ServerAddr = true

set_option maxHeartbeats 1600000 in
/-- C7: for every valid `RDCleanPathPDU` (version within `int64`, string
fields valid UTF-8), in every combination of present and absent optional
fields, `Decode (Encode m) = m`: field presence is preserved exactly, so an
absent (`none`) certificate chain stays distinguishable from a
present-but-empty (`some []`) one, and no zero value is conflated with an
absent field. -/
theorem decodePDU_encodePDU (m : RDCleanPathPDU) (h : WFPdu m) :
    decodePDU (encodePDU m) = .ok m := by
  obtain ⟨ver, errF, dest, pa, sa, blob, x224, certs, addr⟩ := m
  obtain ⟨hv1, hv2, hdest, hpa, hsa, hblob, haddr⟩ := h
  have g9 : goodTail 8 (encOptStr 9 addr) := by
    rw [encOptStr]
    by_cases h : addr = []
    · rw [if_pos h]
      exact goodTail_nil 8
    · rw [if_neg h]
      have := goodTail_tlv 8 9 (tlv 12 addr) [] (by omega) (by omega)
      simpa using this
  have g7 : goodTail 7 (encOptCerts 7 certs ++ encOptStr 9 addr) :=
    goodTail_encOptCerts certs _ (by omega) (by omega) (goodTail_of_le g9 (by omega))
  have g6 : goodTail 6 (encOptOctet 6 x224 ++ (encOptCerts 7 certs ++ encOptStr 9 addr)) :=
    goodTail_encOptOctet x224 _ (by omega) (by omega) (goodTail_of_le g7 (by omega))
  have g5 : goodTail 5 (encOptStr 5 blob
      ++ (encOptOctet 6 x224 ++ (encOptCerts 7 certs ++ encOptStr 9 addr))) :=
    goodTail_encOptStr blob _ (by omega) (by omega) (goodTail_of_le g6 (by omega))
  have g4 : goodTail 4 (encOptStr 4 sa ++ (encOptStr 5 blob
      ++ (encOptOctet 6 x224 ++ (encOptCerts 7 certs ++ encOptStr 9 addr)))) :=
    goodTail_encOptStr sa _ (by omega) (by omega) (goodTail_of_le g5 (by omega))
  have g3 : goodTail 3 (encOptStr 3 pa ++ (encOptStr 4 sa ++ (encOptStr 5 blob
      ++ (encOptOctet 6 x224 ++ (encOptCerts 7 certs ++ encOptStr 9 addr))))) :=
    goodTail_encOptStr pa _ (by omega) (by omega) (goodTail_of_le g4 (by omega))
  have g2 : goodTail 2 (encOptStr 2 dest ++ (encOptStr 3 pa ++ (encOptStr 4 sa
      ++ (encOptStr 5 blob ++ (encOptOctet 6 x224
      ++ (encOptCerts 7 certs ++ encOptStr 9 addr)))))) :=
    goodTail_encOptStr dest _ (by omega) (by omega) (goodTail_of_le g3 (by omega))
  have haddr9 : parseExplicitOptional 9 parseUTF8Stream (encOptStr 9 addr ++ [])
      = .ok ((if addr = [] then none else some addr), []) :=
    stepOptUTF8 9 (by omega) addr [] haddr (goodTail_nil 10)
  rw [List.append_nil] at haddr9
  rw [encodePDU]
  rw [decodePDU]
  rw [parseTL_enc48]
  dsimp only []
  rw [if_neg (lt_irrefl _)]
  rw [if_pos ⟨rfl, rfl, rfl⟩]
  rw [List.take_length]
  rw [parseExplicitRequired_enc 0 parseIntStream ver (tlv 2 (intMinBytes ver)) _
    (tlv_ne_nil 2 _) (by omega) (parseIntStream_enc ver _ hv1 hv2)]
  dsimp only []
  rw [stepOptOctet 1 (by omega) errF _ (goodTail_of_le g2 (by omega))]
  dsimp only []
  rw [stepOptUTF8 2 (by omega) dest _ hdest (goodTail_of_le g3 (by omega))]
  dsimp only []
  rw [stepOptUTF8 3 (by omega) pa _ hpa (goodTail_of_le g4 (by omega))]
  dsimp only []
  rw [stepOptUTF8 4 (by omega) sa _ hsa (goodTail_of_le g5 (by omega))]
  dsimp only []
  rw [stepOptUTF8 5 (by omega) blob _ hblob (goodTail_of_le g6 (by omega))]
  dsimp only []
  rw [stepOptOctet 6 (by omega) x224 _ (goodTail_of_le g7 (by omega))]
  dsimp only []
  rw [stepOptCerts 7 (by omega) certs _ g9]
  dsimp only []
  rw [haddr9]
  dsimp only []
  simp only [optGetD_if]

/-- The supported protocol version constant `RDCleanPathVersion = 3390`. -/
def RDCleanPathVersion : Int := 3390

/-- UTF-8 bytes of one character. -/
def charUTF8 (c : Char) : List Nat :=
  let n := c.toNat
  if n < 128 then [n]
  else if n < 2048 then [192 + n / 64, 128 + n % 64]
  else if n < 65536 then [224 + n / 4096, 128 + (n / 64) % 64, 128 + n % 64]
  else [240 + n / 262144, 128 + (n / 4096) % 64, 128 + (n / 64) % 64, 128 + n % 64]

/-- The byte list of a Go string literal. -/
def strBytes (s : String) : List Nat :=
  s.data.foldr (fun c acc => charUTF8 c ++ acc) []

/-- Byte-level suffix test, as `strings.HasSuffix` performs on Go strings. -/
def hasSuffixBytes (s suf : List Nat) : Bool :=
  decide (suf.length ≤ s.length) && decide (s.drop (s.length - suf.length) = suf)

/-- The per-session `proxyConnection` struct: id, resolved destination, and
whether the TCP / TLS handles are installed. In the source the handles are
nil until installed and cleanup closes and clears them together, so a `true`
flag is an installed, still-open handle. `cancelled` records whether the
context's cancel function has run. -/
structure ProxyConnection where
  id : String
  destination : List Nat
  rdpConn : Bool := false
  tlsConn : Bool := false
  cancelled : Bool := false
  deriving Repr, DecidableEq

/-- The `RDCleanPathProxy` registry state: the keys of `activeConnections`
and the `destinations` table. -/
structure ProxyState where
  activeConnections : List String := []
  destinations : List (String × List Nat) := []
  deriving Repr, DecidableEq

/-- Observable actions of one sequentialized engine run. -/
inductive NetEvent where
  | dialed (address : List Nat)
  | wroteRemote (bytes : List Nat)
  | wroteTLS (bytes : List Nat)
  | sentPDU (pdu : RDCleanPathPDU)
  | sentWS (bytes : List Nat)
  | startedForwardWSToTCP
  | startedForwardTCPToWS
  | startedForwardTLSToWS
  | cleanedUp (id : String)
  deriving Repr, DecidableEq

/-- Environment of one negotiation run: outcomes of the remote-side
operations the engine performs (the dial, the X.224 write, the bounded read,
the TLS handshake) and the certificate chain the completed handshake
exposes (`tls.ConnectionState().PeerCertificates`, leaf first, raw DER). -/
structure NetEnv where
  dialOk : Bool
  writeOk : Bool
  readResult : Option (List Nat)
  handshakeOk : Bool
  peerCerts : List (List Nat)
  deriving Repr, DecidableEq

/-- `sendRDCleanPathPDU`: marshal the PDU and send it to the websocket.
The event carries the PDU; the wire bytes are `encodePDU pdu`. -/
def sendRDCleanPathPDU (pdu : RDCleanPathPDU) : List NetEvent := [.sentPDU pdu]

/-- The error PDU `sendRDCleanPathError` builds: version plus error text. -/
def errorReplyPDU (msg : String) : RDCleanPathPDU :=
  { Version := RDCleanPathVersion, Error := some (strBytes msg) }

/-- `sendRDCleanPathError`: build and send the error PDU. -/
def sendRDCleanPathError (msg : String) : List NetEvent :=
  sendRDCleanPathPDU (errorReplyPDU msg)

/-- `cleanupConnection`: cancel the context, close and clear whichever
connection handles are set, and delete the id from `activeConnections`. -/
def cleanupConnection (conn : ProxyConnection) (st : ProxyState) :
    ProxyConnection × ProxyState × List NetEvent :=
  ({ conn with cancelled := true, tlsConn := false, rdpConn := false },
   { st with activeConnections := st.activeConnections.filter (fun i => i != conn.id) },
   [.cleanedUp conn.id])

/-- The tail of `setupTLSConnection` after the optional X.224 passthrough:
install the TLS client handle, run the handshake (failure sends an error PDU
and returns without cleanup), else extract the peer certificates, build and
send the response PDU, start `forwardTLSToWS`, and after context
cancellation run `cleanupConnection`. -/
def tlsAfterX224 (conn : ProxyConnection) (st : ProxyState) (env : NetEnv)
    (x224Response : List Nat) (evs : List NetEvent) :
    ProxyConnection × ProxyState × List NetEvent :=
  let conn := { conn with tlsConn := true }
  if env.handshakeOk = false then
    (conn, st, evs ++ sendRDCleanPathError "TLS handshake failed")
  else
    let certChain : Option (List (List Nat)) :=
      if env.peerCerts.length > 0 then some env.peerCerts else none
    let responsePDU : RDCleanPathPDU :=
      { Version := RDCleanPathVersion, ServerAddr := conn.destination,
        ServerCertChain := certChain }
    let responsePDU :=
      if x224Response.length > 0 then
        { responsePDU with X224ConnectionPDU := some x224Response }
      else responsePDU
    let cleaned := cleanupConnection conn st
    (cleaned.1, cleaned.2.1,
      evs ++ sendRDCleanPathPDU responsePDU ++ [.startedForwardTLSToWS] ++ cleaned.2.2)

/-- `setupTLSConnection`: optional X.224 passthrough on the still-plain
connection (write the payload; on success one bounded read into a 1024-byte
buffer), each failure sending an error PDU and returning without cleanup;
then the TLS tail. -/
def setupTLSConnection (conn : ProxyConnection) (st : ProxyState) (env : NetEnv)
    (pdu : RDCleanPathPDU) : ProxyConnection × ProxyState × List NetEvent :=
  let payload := pdu.X224ConnectionPDU.getD []
  if payload.length > 0 then
    if env.writeOk = false then
      (conn, st, sendRDCleanPathError "Failed to forward X.224")
    else
      match env.readResult with
      | none =>
        (conn, st, [.wroteRemote payload] ++ sendRDCleanPathError "Failed to read X.224 response")
      | some bytes =>
        tlsAfterX224 conn st env (bytes.take 1024) [.wroteRemote payload]
  else
    tlsAfterX224 conn st env [] []

/-- `setupPlainConnection`: optional X.224 passthrough, response PDU
(carrying the X.224 response — possibly empty — and `conn.destination`),
start `forwardTCPToWS`, and after context cancellation run cleanup. -/
def setupPlainConnection (conn : ProxyConnection) (st : ProxyState) (env : NetEnv)
    (pdu : RDCleanPathPDU) : ProxyConnection × ProxyState × List NetEvent :=
  let payload := pdu.X224ConnectionPDU.getD []
  if payload.length > 0 then
    if env.writeOk = false then
      (conn, st, sendRDCleanPathError "Failed to forward X.224")
    else
      match env.readResult with
      | none =>
        (conn, st, [.wroteRemote payload] ++ sendRDCleanPathError "Failed to read X.224 response")
      | some bytes =>
        let responsePDU : RDCleanPathPDU :=
          { Version := RDCleanPathVersion,
            X224ConnectionPDU := some (bytes.take 1024),
            ServerAddr := conn.destination }
        let cleaned := cleanupConnection conn st
        (cleaned.1, cleaned.2.1,
          [.wroteRemote payload] ++ sendRDCleanPathPDU responsePDU
            ++ [.startedForwardTCPToWS] ++ cleaned.2.2)
  else
    let responsePDU : RDCleanPathPDU :=
      { Version := RDCleanPathVersion, ServerAddr := conn.destination }
    let cleaned := cleanupConnection conn st
    (cleaned.1, cleaned.2.1,
      sendRDCleanPathPDU responsePDU ++ [.startedForwardTCPToWS] ++ cleaned.2.2)

/-- The effective destination: the PDU's destination field when non-empty,
else the session's registered destination. -/
def effDest (conn : ProxyConnection) (pdu : RDCleanPathPDU) : List Nat :=
  if pdu.Destination ≠ [] then pdu.Destination else conn.destination

/-- `processRDCleanPathPDU`: version check (mismatch sends an error PDU and
returns — no cleanup), effective-destination resolution (PDU field if
non-empty, else the session's registered destination), dial (failure sends
an error PDU and cleans up), install `rdpConn`, then the TLS-or-plain
decision by the `:3389` suffix of the effective destination. -/
def processRDCleanPathPDU (conn : ProxyConnection) (st : ProxyState) (env : NetEnv)
    (pdu : RDCleanPathPDU) : ProxyConnection × ProxyState × List NetEvent :=
  if pdu.Version ≠ RDCleanPathVersion then
    (conn, st, sendRDCleanPathError "Unsupported version")
  else
    let destination := effDest conn pdu
    if env.dialOk = false then
      let cleaned := cleanupConnection conn st
      (cleaned.1, cleaned.2.1,
        [.dialed destination] ++ sendRDCleanPathError "Connection failed" ++ cleaned.2.2)
    else
      let conn := { conn with rdpConn := true }
      let useTLS := hasSuffixBytes destination (strBytes ":3389")
      let r := if useTLS then setupTLSConnection conn st env pdu
               else setupPlainConnection conn st env pdu
      (r.1, r.2.1, [.dialed destination] ++ r.2.2)

/-- `forwardToRDP`: write the boundary bytes to the TLS handle when one is
installed, else to the raw TCP handle when one is installed. -/
def forwardToRDP (conn : ProxyConnection) (bytes : List Nat) : List NetEvent :=
  if conn.tlsConn then [.wroteTLS bytes]
  else if conn.rdpConn then [.wroteRemote bytes]
  else []

/-- `handleDirectRDP`: deferred cleanup on every return path; dial, forward
the raw first packet, one bounded 1024-byte read relayed verbatim to the
websocket, then start both forwarding loops. -/
def handleDirectRDP (conn : ProxyConnection) (st : ProxyState) (env : NetEnv)
    (firstPacket : List Nat) : ProxyConnection × ProxyState × List NetEvent :=
  let core : ProxyConnection × ProxyState × List NetEvent :=
    if env.dialOk = false then (conn, st, [.dialed conn.destination])
    else
      let conn := { conn with rdpConn := true }
      if env.writeOk = false then (conn, st, [.dialed conn.destination])
      else
        match env.readResult with
        | none => (conn, st, [.dialed conn.destination, .wroteRemote firstPacket])
        | some bytes =>
          (conn, st,
            [.dialed conn.destination, .wroteRemote firstPacket,
             .sentWS (bytes.take 1024), .startedForwardWSToTCP, .startedForwardTCPToWS])
  let cleaned := cleanupConnection core.1 core.2.1
  (cleaned.1, cleaned.2.1, core.2.2 ++ cleaned.2.2)

/-- `handleWebSocketMessage`: once either connection handle is installed,
bytes bypass PDU decoding and go to `forwardToRDP`; otherwise decode — a
valid PDU goes to `processRDCleanPathPDU`, a decode failure starting with
the raw marker byte `0x03` enters direct mode, any other decode failure is
dropped with no action. -/
def handleWebSocketMessage (conn : ProxyConnection) (st : ProxyState) (env : NetEnv)
    (bytes : List Nat) : ProxyConnection × ProxyState × List NetEvent :=
  if conn.rdpConn || conn.tlsConn then (conn, st, forwardToRDP conn bytes)
  else
    match decodePDU bytes with
    | .ok pdu => processRDCleanPathPDU conn st env pdu
    | .error _ =>
      match bytes with
      | b :: _ => if b = 3 then handleDirectRDP conn st env bytes else (conn, st, [])
      | [] => (conn, st, [])

/-- Destination chosen by `createProxy` from its JavaScript arguments. -/
def argDestination (args : Option (String × String)) : List Nat :=
  match args with
  | some (hostname, port) => strBytes (hostname ++ ":" ++ port)
  | none => strBytes "win2k19-c2.nb.internal:3389"

/-- Go map insert (replace the key's entry or append). -/
def insertAssoc (k : String) (v : List Nat) :
    List (String × List Nat) → List (String × List Nat)
  | [] => [(k, v)]
  | (k2, v2) :: rest => if k2 = k then (k, v) :: rest else (k2, v2) :: insertAssoc k v rest

/-- Go map lookup. -/
def lookupAssoc (k : String) : List (String × List Nat) → Option (List Nat)
  | [] => none
  | (k2, v2) :: rest => if k2 = k then some v2 else lookupAssoc k rest

/-- `createProxy`: derive the proxy id from the current size of
`activeConnections` and record the destination in `destinations`. -/
def createProxy (st : ProxyState) (args : Option (String × String)) :
    String × ProxyState :=
  let destination := argDestination args
  let proxyID := "proxy_" ++ toString st.activeConnections.length
  (proxyID,
   { st with destinations := insertAssoc proxyID destination st.destinations })

/-- `HandleWebSocketConnection`: resolve the session destination from the
`destinations` table (empty or missing falls back to the default), create
the connection record and register it in `activeConnections`. -/
def HandleWebSocketConnection (st : ProxyState) (proxyID : String) :
    ProxyConnection × ProxyState :=
  let destination :=
    match lookupAssoc proxyID st.destinations with
    | some d => if d = [] then strBytes "win2k19-c2.nb.internal:3389" else d
    | none => strBytes "win2k19-c2.nb.internal:3389"
  let conn : ProxyConnection := { id := proxyID, destination := destination }
  (conn,
   { st with activeConnections :=
      if st.activeConnections.contains proxyID then st.activeConnections
      else st.activeConnections ++ [proxyID] })

/-- The PDUs a trace sent to the websocket via `sendRDCleanPathPDU`. -/
def sentPDUs (evs : List NetEvent) : List RDCleanPathPDU :=
  evs.filterMap (fun e => match e with | .sentPDU p => some p | _ => none)

/-- The addresses a trace dialed. -/
def dials (evs : List NetEvent) : List (List Nat) :=
  evs.filterMap (fun e => match e with | .dialed a => some a | _ => none)

/-- The byte strings a trace wrote to the raw remote connection. -/
def remoteWrites (evs : List NetEvent) : List (List Nat) :=
  evs.filterMap (fun e => match e with | .wroteRemote b => some b | _ => none)

/-- The raw (non-PDU) byte strings a trace sent to the websocket. -/
def wsRawSends (evs : List NetEvent) : List (List Nat) :=
  evs.filterMap (fun e => match e with | .sentWS b => some b | _ => none)

/-- The error-reply PDUs in a trace (a present `Error` field). -/
def errorReplies (evs : List NetEvent) : List RDCleanPathPDU :=
  (sentPDUs evs).filter (fun p => p.Error != none)

@[simp] theorem sentPDUs_nil : sentPDUs [] = [] := rfl

@[simp] theorem sentPDUs_cons (e : NetEvent) (evs : List NetEvent) :
    sentPDUs (e :: evs)
      = (match e with | .sentPDU p => [p] | _ => []) ++ sentPDUs evs := by
  cases e <;> rfl

@[simp] theorem sentPDUs_append (a b : List NetEvent) :
    sentPDUs (a ++ b) = sentPDUs a ++ sentPDUs b := by
  simp [sentPDUs, List.filterMap_append]

@[simp] theorem dials_nil : dials [] = [] := rfl

@[simp] theorem dials_cons (e : NetEvent) (evs : List NetEvent) :
    dials (e :: evs) = (match e with | .dialed a => [a] | _ => []) ++ dials evs := by
  cases e <;> rfl

@[simp] theorem dials_append (a b : List NetEvent) :
    dials (a ++ b) = dials a ++ dials b := by
  simp [dials, List.filterMap_append]

@[simp] theorem remoteWrites_nil : remoteWrites [] = [] := rfl

@[simp] theorem remoteWrites_cons (e : NetEvent) (evs : List NetEvent) :
    remoteWrites (e :: evs)
      = (match e with | .wroteRemote b => [b] | _ => []) ++ remoteWrites evs := by
  cases e <;> rfl

@[simp] theorem remoteWrites_append (a b : List NetEvent) :
    remoteWrites (a ++ b) = remoteWrites a ++ remoteWrites b := by
  simp [remoteWrites, List.filterMap_append]

@[simp] theorem wsRawSends_nil : wsRawSends [] = [] := rfl

@[simp] theorem wsRawSends_cons (e : NetEvent) (evs : List NetEvent) :
    wsRawSends (e :: evs)
      = (match e with | .sentWS b => [b] | _ => []) ++ wsRawSends evs := by
  cases e <;> rfl

@[simp] theorem wsRawSends_append (a b : List NetEvent) :
    wsRawSends (a ++ b) = wsRawSends a ++ wsRawSends b := by
  simp [wsRawSends, List.filterMap_append]

theorem sentPDU_mem_tlsAfterX224 (conn : ProxyConnection) (st : ProxyState)
    (env : NetEnv) (x : List Nat) (evs : List NetEvent) (p : RDCleanPathPDU)
    (hp : p ∈ sentPDUs (tlsAfterX224 conn st env x evs).2.2) :
    p ∈ sentPDUs evs ∨ (∃ msg, p = errorReplyPDU msg) ∨
    (env.handshakeOk = true ∧ p.Error = none ∧ p.ServerAddr = conn.destination ∧
     p.ServerCertChain = (if env.peerCerts.length > 0 then some env.peerCerts else none)) := by
  rw [tlsAfterX224] at hp
  dsimp only [] at hp
  by_cases hh : env.handshakeOk = false
  · rw [if_pos hh] at hp
    simp [sendRDCleanPathError, sendRDCleanPathPDU] at hp
    rcases hp with hp | hp
    · exact Or.inl hp
    · exact Or.inr (Or.inl ⟨_, hp⟩)
  · rw [if_neg hh] at hp
    dsimp only [cleanupConnection] at hp
    by_cases hx : x.length > 0
    · rw [if_pos hx] at hp
      simp [sendRDCleanPathPDU] at hp
      rcases hp with hp | hp
      · exact Or.inl hp
      · subst hp
        exact Or.inr (Or.inr ⟨by simpa using hh, rfl, rfl, rfl⟩)
    · rw [if_neg hx] at hp
      simp [sendRDCleanPathPDU] at hp
      rcases hp with hp | hp
      · exact Or.inl hp
      · subst hp
        exact Or.inr (Or.inr ⟨by simpa using hh, rfl, rfl, rfl⟩)

theorem sentPDU_mem_setupTLS (conn : ProxyConnection) (st : ProxyState)
    (env : NetEnv) (pdu : RDCleanPathPDU) (p : RDCleanPathPDU)
    (hp : p ∈ sentPDUs (setupTLSConnection conn st env pdu).2.2) :
    (∃ msg, p = errorReplyPDU msg) ∨
    (env.handshakeOk = true ∧ p.Error = none ∧ p.ServerAddr = conn.destination ∧
     p.ServerCertChain = (if env.peerCerts.length > 0 then some env.peerCerts else none)) := by
  rw [setupTLSConnection] at hp
  by_cases hpay : (pdu.X224ConnectionPDU.getD []).length > 0
  · rw [if_pos hpay] at hp
    by_cases hw : env.writeOk = false
    · rw [if_pos hw] at hp
      simp [sendRDCleanPathError, sendRDCleanPathPDU] at hp
      exact Or.inl ⟨_, hp⟩
    · rw [if_neg hw] at hp
      cases hread : env.readResult with
      | none =>
        rw [hread] at hp
        simp [sendRDCleanPathError, sendRDCleanPathPDU] at hp
        exact Or.inl ⟨_, hp⟩
      | some bytes =>
        rw [hread] at hp
        have h2 := sentPDU_mem_tlsAfterX224 conn st env (bytes.take 1024)
          [.wroteRemote (pdu.X224ConnectionPDU.getD [])] p hp
        rcases h2 with h2 | h2 | h2
        · simp at h2
        · exact Or.inl h2
        · exact Or.inr h2
  · rw [if_neg hpay] at hp
    have h2 := sentPDU_mem_tlsAfterX224 conn st env [] [] p hp
    rcases h2 with h2 | h2 | h2
    · simp at h2
    · exact Or.inl h2
    · exact Or.inr h2

theorem sentPDU_mem_setupPlain (conn : ProxyConnection) (st : ProxyState)
    (env : NetEnv) (pdu : RDCleanPathPDU) (p : RDCleanPathPDU)
    (hp : p ∈ sentPDUs (setupPlainConnection conn st env pdu).2.2) :
    (∃ msg, p = errorReplyPDU msg) ∨
    (p.Error = none ∧ p.ServerAddr = conn.destination ∧ p.ServerCertChain = none) := by
  rw [setupPlainConnection] at hp
  dsimp only [] at hp
  by_cases hpay : (pdu.X224ConnectionPDU.getD []).length > 0
  · rw [if_pos hpay] at hp
    by_cases hw : env.writeOk = false
    · rw [if_pos hw] at hp
      simp [sendRDCleanPathError, sendRDCleanPathPDU] at hp
      exact Or.inl ⟨_, hp⟩
    · rw [if_neg hw] at hp
      cases hread : env.readResult with
      | none =>
        rw [hread] at hp
        simp [sendRDCleanPathError, sendRDCleanPathPDU] at hp
        exact Or.inl ⟨_, hp⟩
      | some bytes =>
        rw [hread] at hp
        dsimp only [cleanupConnection] at hp
        simp [sendRDCleanPathPDU] at hp
        subst hp
        exact Or.inr ⟨rfl, rfl, rfl⟩
  · rw [if_neg hpay] at hp
    dsimp only [cleanupConnection] at hp
    simp [sendRDCleanPathPDU] at hp
    subst hp
    exact Or.inr ⟨rfl, rfl, rfl⟩

theorem sentPDU_mem_char (conn : ProxyConnection) (st : ProxyState)
    (env : NetEnv) (pdu : RDCleanPathPDU) (p : RDCleanPathPDU)
    (hp : p ∈ sentPDUs (processRDCleanPathPDU conn st env pdu).2.2) :
    (∃ msg, p = errorReplyPDU msg) ∨
    (p.Error = none ∧ p.ServerAddr = conn.destination ∧
      ((hasSuffixBytes (effDest conn pdu) (strBytes ":3389") = true ∧
        env.handshakeOk = true ∧
        p.ServerCertChain = (if env.peerCerts.length > 0 then some env.peerCerts else none)) ∨
       (hasSuffixBytes (effDest conn pdu) (strBytes ":3389") = false ∧
        p.ServerCertChain = none))) := by
  rw [processRDCleanPathPDU] at hp
  by_cases hv : pdu.Version ≠ RDCleanPathVersion
  · rw [if_pos hv] at hp
    simp [sendRDCleanPathError, sendRDCleanPathPDU] at hp
    exact Or.inl ⟨_, hp⟩
  · rw [if_neg hv] at hp
    dsimp only [] at hp
    by_cases hd : env.dialOk = false
    · rw [if_pos hd] at hp
      dsimp only [cleanupConnection] at hp
      simp [sendRDCleanPathError, sendRDCleanPathPDU] at hp
      exact Or.inl ⟨_, hp⟩
    · rw [if_neg hd] at hp
      dsimp only [] at hp
      by_cases hs : hasSuffixBytes (effDest conn pdu) (strBytes ":3389") = true
      · rw [if_pos hs] at hp
        simp only [sentPDUs_append, List.mem_append] at hp
        rcases hp with hp | hp
        · simp at hp
        · have h2 := sentPDU_mem_setupTLS { conn with rdpConn := true } st env pdu p hp
          rcases h2 with h2 | ⟨hh, he, ha, hc⟩
          · exact Or.inl h2
          · exact Or.inr ⟨he, ha, Or.inl ⟨hs, hh, hc⟩⟩
      · rw [if_neg hs] at hp
        simp only [sentPDUs_append, List.mem_append] at hp
        rcases hp with hp | hp
        · simp at hp
        · have h2 := sentPDU_mem_setupPlain { conn with rdpConn := true } st env pdu p hp
          rcases h2 with h2 | ⟨he, ha, hc⟩
          · exact Or.inl h2
          · exact Or.inr ⟨he, ha, Or.inr ⟨by simpa using hs, hc⟩⟩

theorem dials_tlsAfterX224 (conn : ProxyConnection) (st : ProxyState) (env : NetEnv)
    (x : List Nat) (evs : List NetEvent) :
    dials (tlsAfterX224 conn st env x evs).2.2 = dials evs := by
  simp only [tlsAfterX224, sendRDCleanPathError, sendRDCleanPathPDU, cleanupConnection]
  split
  · simp
  · split <;> simp

theorem dials_setupTLS (conn : ProxyConnection) (st : ProxyState) (env : NetEnv)
    (pdu : RDCleanPathPDU) :
    dials (setupTLSConnection conn st env pdu).2.2 = [] := by
  simp only [setupTLSConnection, sendRDCleanPathError, sendRDCleanPathPDU]
  split
  · split
    · simp
    · split
      · simp
      · simp [dials_tlsAfterX224]
  · simp [dials_tlsAfterX224]

theorem dials_setupPlain (conn : ProxyConnection) (st : ProxyState) (env : NetEnv)
    (pdu : RDCleanPathPDU) :
    dials (setupPlainConnection conn st env pdu).2.2 = [] := by
  simp only [setupPlainConnection, sendRDCleanPathError, sendRDCleanPathPDU,
    cleanupConnection]
  split
  · split
    · simp
    · split <;> simp
  · simp

theorem dials_process (conn : ProxyConnection) (st : ProxyState) (env : NetEnv)
    (pdu : RDCleanPathPDU) :
    ∀ a ∈ dials (processRDCleanPathPDU conn st env pdu).2.2, a = effDest conn pdu := by
  intro a ha
  rw [processRDCleanPathPDU] at ha
  by_cases hv : pdu.Version ≠ RDCleanPathVersion
  · rw [if_pos hv] at ha
    simp [sendRDCleanPathError, sendRDCleanPathPDU] at ha
  · rw [if_neg hv] at ha
    dsimp only [] at ha
    by_cases hd : env.dialOk = false
    · rw [if_pos hd] at ha
      dsimp only [cleanupConnection] at ha
      simp [sendRDCleanPathError, sendRDCleanPathPDU] at ha
      exact ha
    · rw [if_neg hd] at ha
      dsimp only [] at ha
      by_cases hs : hasSuffixBytes (effDest conn pdu) (strBytes ":3389") = true
      · rw [if_pos hs] at ha
        simp only [dials_append, dials_cons, List.mem_append] at ha
        rcases ha with ha | ha
        · simpa using ha
        · rw [dials_setupTLS] at ha
          simp at ha
      · rw [if_neg hs] at ha
        simp only [dials_append, dials_cons, List.mem_append] at ha
        rcases ha with ha | ha
        · simpa using ha
        · rw [dials_setupPlain] at ha
          simp at ha

/-- Sample connection record registered as `"p1"`. -/
def demoConn (dest : String) : ProxyConnection :=
  { id := "p1", destination := strBytes dest }

/-- Sample registry holding the `"p1"` session. -/
def demoState : ProxyState :=
  { activeConnections := ["p1"], destinations := [] }

/-- Environment in which every remote operation succeeds and the remote
presents a two-certificate chain. -/
def demoEnvOk : NetEnv :=
  { dialOk := true, writeOk := true, readResult := some [], handshakeOk := true,
    peerCerts := [[48, 130], [49]] }

/-- Environment in which the remote answers the first read with two bytes. -/
def demoEnvRead : NetEnv :=
  { dialOk := true, writeOk := true, readResult := some [7, 7], handshakeOk := true,
    peerCerts := [] }

/-- Environment in which the dial succeeds but the first write fails. -/
def demoEnvWriteFail : NetEnv :=
  { dialOk := true, writeOk := false, readResult := none, handshakeOk := true,
    peerCerts := [] }

/-- C1: on the TLS path (effective destination carrying the `:3389` suffix),
when the remote completes the TLS handshake presenting the non-empty DER
chain `env.peerCerts` (leaf first, the order of Go's `PeerCertificates`),
every non-error PDU the negotiation sends carries exactly that chain,
entry-for-entry byte-identical; on the plain path no sent PDU — response or
error reply — ever contains a `ServerCertChain` field. (A completed
`crypto/tls` client handshake always yields at least one peer certificate,
so the non-empty hypothesis covers every realizable handshake.) -/
theorem certChain_tls_vs_plain (conn : ProxyConnection) (st : ProxyState)
    (env : NetEnv) (pdu : RDCleanPathPDU) :
    (hasSuffixBytes (effDest conn pdu) (strBytes ":3389") = true →
      env.handshakeOk = true → 0 < env.peerCerts.length →
      ∀ p ∈ sentPDUs (processRDCleanPathPDU conn st env pdu).2.2,
        p.Error = none → p.ServerCertChain = some env.peerCerts)
    ∧ (hasSuffixBytes (effDest conn pdu) (strBytes ":3389") = false →
      ∀ p ∈ sentPDUs (processRDCleanPathPDU conn st env pdu).2.2,
        p.ServerCertChain = none) := by
  constructor
  · intro hs _ hn p hp he
    rcases sentPDU_mem_char conn st env pdu p hp with ⟨msg, rfl⟩ | ⟨_, _, hcase⟩
    · exact absurd he (by simp [errorReplyPDU])
    · rcases hcase with ⟨_, _, hc⟩ | ⟨hs2, _⟩
      · rw [hc, if_pos hn]
      · rw [hs] at hs2
        cases hs2
  · intro hs p hp
    rcases sentPDU_mem_char conn st env pdu p hp with ⟨msg, rfl⟩ | ⟨_, _, hcase⟩
    · rfl
    · rcases hcase with ⟨hs2, _, _⟩ | ⟨_, hc⟩
      · rw [hs2] at hs
        cases hs
      · exact hc

/-- Witness for C1: a concrete TLS-path negotiation against a remote
presenting two certificates yields a response PDU carrying exactly those
two DER strings, leaf first. -/
theorem certChain_tls_vs_plain_witness :
    ({ Version := RDCleanPathVersion, ServerAddr := strBytes "h:3389",
       ServerCertChain := some [[48, 130], [49]] } : RDCleanPathPDU).ServerCertChain
      = some [[48, 130], [49]] :=
  (certChain_tls_vs_plain (demoConn "h:3389") demoState demoEnvOk
      { Version := 3390 }).1 (by decide) rfl (by decide)
    { Version := RDCleanPathVersion, ServerAddr := strBytes "h:3389",
      ServerCertChain := some [[48, 130], [49]] }
    (by decide) rfl

/-- C2 counterexample: a first PDU with version `3391 = SupportedVersion + 1`
produces the single error reply, but the session is NOT torn down — the
scope is not cancelled and the registry entry `"p1"` remains — refuting the
claim's teardown conjunct. -/
theorem version_mismatch_counterexample :
    (3391 : Int) ≠ RDCleanPathVersion
    ∧ (processRDCleanPathPDU (demoConn "host:3389") demoState demoEnvOk
        { Version := 3391 }).1.cancelled = false
    ∧ (processRDCleanPathPDU (demoConn "host:3389") demoState demoEnvOk
        { Version := 3391 }).2.1.activeConnections = ["p1"]
    ∧ errorReplies (processRDCleanPathPDU (demoConn "host:3389") demoState demoEnvOk
        { Version := 3391 }).2.2 = [errorReplyPDU "Unsupported version"] := by
  decide

/-- C2 amended: a version mismatch sends exactly one error-reply PDU and
nothing else — no dial, no forward to the remote — but the session is left
untouched: the connection state (including its cancellation flag) and the
registry are returned unchanged, so no teardown happens. -/
theorem version_mismatch_reply_no_teardown (conn : ProxyConnection) (st : ProxyState)
    (env : NetEnv) (pdu : RDCleanPathPDU) (h : pdu.Version ≠ RDCleanPathVersion) :
    processRDCleanPathPDU conn st env pdu
      = (conn, st, [.sentPDU (errorReplyPDU "Unsupported version")]) := by
  rw [processRDCleanPathPDU, if_pos h]
  rfl

/-- Witness for C2's amended statement at version 3391. -/
theorem version_mismatch_reply_no_teardown_witness :
    processRDCleanPathPDU (demoConn "host:3389") demoState demoEnvOk { Version := 3391 }
      = (demoConn "host:3389", demoState,
          [.sentPDU (errorReplyPDU "Unsupported version")]) :=
  version_mismatch_reply_no_teardown (demoConn "host:3389") demoState demoEnvOk
    { Version := 3391 } (by decide)

/-- C3 counterexample: with registered destination `reg:80` and a PDU
overriding it with `override:80`, the engine dials `override:80` but the
response PDU's `ServerAddr` echoes `reg:80` — the registered destination,
not the address actually dialed. -/
theorem serverAddr_not_dialed_counterexample :
    dials (processRDCleanPathPDU (demoConn "reg:80") demoState demoEnvOk
        { Version := 3390, Destination := strBytes "override:80" }).2.2
      = [strBytes "override:80"]
    ∧ sentPDUs (processRDCleanPathPDU (demoConn "reg:80") demoState demoEnvOk
        { Version := 3390, Destination := strBytes "override:80" }).2.2
      = [{ Version := 3390, ServerAddr := strBytes "reg:80" }]
    ∧ strBytes "reg:80" ≠ strBytes "override:80" := by
  decide

/-- C3 amended: every non-error PDU the negotiation sends carries the
session's REGISTERED destination (`conn.destination`) in `ServerAddr`, while
every dial goes to the resolved effective destination; the two coincide
exactly when the PDU's destination field is absent, so the claim holds only
in that case. -/
theorem serverAddr_is_registered_destination (conn : ProxyConnection)
    (st : ProxyState) (env : NetEnv) (pdu : RDCleanPathPDU) :
    (∀ p ∈ sentPDUs (processRDCleanPathPDU conn st env pdu).2.2,
        p.Error = none → p.ServerAddr = conn.destination)
    ∧ (∀ a ∈ dials (processRDCleanPathPDU conn st env pdu).2.2,
        a = effDest conn pdu)
    ∧ (pdu.Destination = [] → effDest conn pdu = conn.destination) := by
  refine ⟨?_, dials_process conn st env pdu, ?_⟩
  · intro p hp he
    rcases sentPDU_mem_char conn st env pdu p hp with ⟨msg, rfl⟩ | ⟨_, ha, _⟩
    · exact absurd he (by simp [errorReplyPDU])
    · exact ha
  · intro h
    simp [effDest, h]

/-- Witness for C3's amended statement: in a concrete plain-path run the
response PDU's `ServerAddr` equals the registered destination. -/
theorem serverAddr_is_registered_destination_witness :
    ({ Version := 3390, ServerAddr := strBytes "reg:80" } : RDCleanPathPDU).ServerAddr
      = (demoConn "reg:80").destination :=
  (serverAddr_is_registered_destination (demoConn "reg:80") demoState demoEnvOk
      { Version := 3390, Destination := strBytes "override:80" }).1
    { Version := 3390, ServerAddr := strBytes "reg:80" } (by decide) rfl

/-- C4 (demonstrating the code bug): after a successful dial on the TLS
path, a failing X.224 write sends the error reply but returns WITHOUT
running `cleanupConnection`: the freshly dialed remote handle stays
installed and open, the scope is not cancelled, no cleanup event occurs,
and the registry entry survives — a leaked socket with a stale registry
entry. The dial-failure branch, by contrast, does clean up. -/
theorem post_dial_failure_no_cleanup :
    (processRDCleanPathPDU (demoConn "host:3389") demoState demoEnvWriteFail
        { Version := 3390, X224ConnectionPDU := some [3, 0, 0, 11] }).1.rdpConn = true
    ∧ (processRDCleanPathPDU (demoConn "host:3389") demoState demoEnvWriteFail
        { Version := 3390, X224ConnectionPDU := some [3, 0, 0, 11] }).1.cancelled = false
    ∧ (processRDCleanPathPDU (demoConn "host:3389") demoState demoEnvWriteFail
        { Version := 3390, X224ConnectionPDU := some [3, 0, 0, 11] }).2.1.activeConnections
        = ["p1"]
    ∧ errorReplies (processRDCleanPathPDU (demoConn "host:3389") demoState demoEnvWriteFail
        { Version := 3390, X224ConnectionPDU := some [3, 0, 0, 11] }).2.2
        = [errorReplyPDU "Failed to forward X.224"]
    ∧ NetEvent.cleanedUp "p1" ∉
        (processRDCleanPathPDU (demoConn "host:3389") demoState demoEnvWriteFail
          { Version := 3390, X224ConnectionPDU := some [3, 0, 0, 11] }).2.2 := by
  decide

/-- C5: a first message that fails CleanPath decoding and begins with the
raw marker byte `0x03` enters direct mode: no PDU is ever sent back, the
destination is dialed, the raw first-message bytes are the one and only
remote write (byte-for-byte), the remote's first response — one bounded
read of at most 1024 bytes — is relayed verbatim to the websocket, and both
forwarding loops are started. -/
theorem direct_mode_raw_relay (conn : ProxyConnection) (st : ProxyState)
    (env : NetEnv) (bytes r : List Nat) (e : String)
    (hrdp : conn.rdpConn = false) (htls : conn.tlsConn = false)
    (hdec : decodePDU bytes = .error e) (hmark : bytes.head? = some 3)
    (hdial : env.dialOk = true) (hwrite : env.writeOk = true)
    (hread : env.readResult = some r) :
    sentPDUs (handleWebSocketMessage conn st env bytes).2.2 = []
    ∧ dials (handleWebSocketMessage conn st env bytes).2.2 = [conn.destination]
    ∧ remoteWrites (handleWebSocketMessage conn st env bytes).2.2 = [bytes]
    ∧ wsRawSends (handleWebSocketMessage conn st env bytes).2.2 = [r.take 1024]
    ∧ (r.take 1024).length ≤ 1024
    ∧ NetEvent.startedForwardWSToTCP ∈ (handleWebSocketMessage conn st env bytes).2.2
    ∧ NetEvent.startedForwardTCPToWS ∈ (handleWebSocketMessage conn st env bytes).2.2 := by
  obtain ⟨bs, rfl⟩ : ∃ bs, bytes = 3 :: bs := by
    cases bytes with
    | nil => simp at hmark
    | cons b t =>
      simp at hmark
      exact ⟨t, by rw [hmark]⟩
  have hrun : handleWebSocketMessage conn st env (3 :: bs)
      = handleDirectRDP conn st env (3 :: bs) := by
    rw [handleWebSocketMessage, if_neg (by simp [hrdp, htls]), hdec]
    rfl
  rw [hrun, handleDirectRDP, hdial]
  rw [if_neg (by simp)]
  rw [hwrite]
  rw [if_neg (by simp)]
  rw [hread]
  dsimp only [cleanupConnection]
  refine ⟨by simp, by simp, by simp, by simp, ?_, by simp, by simp⟩
  simp [List.length_take]

/-- Witness for C5 at the concrete raw first packet `[3]` (which fails
CleanPath decoding) and a two-byte remote response. -/
theorem direct_mode_raw_relay_witness :
    sentPDUs (handleWebSocketMessage (demoConn "h:99") demoState demoEnvRead [3]).2.2 = []
    ∧ dials (handleWebSocketMessage (demoConn "h:99") demoState demoEnvRead [3]).2.2
        = [(demoConn "h:99").destination]
    ∧ remoteWrites (handleWebSocketMessage (demoConn "h:99") demoState demoEnvRead [3]).2.2
        = [[3]]
    ∧ wsRawSends (handleWebSocketMessage (demoConn "h:99") demoState demoEnvRead [3]).2.2
        = [List.take 1024 [7, 7]]
    ∧ (List.take 1024 [7, 7]).length ≤ 1024
    ∧ NetEvent.startedForwardWSToTCP
        ∈ (handleWebSocketMessage (demoConn "h:99") demoState demoEnvRead [3]).2.2
    ∧ NetEvent.startedForwardTCPToWS
        ∈ (handleWebSocketMessage (demoConn "h:99") demoState demoEnvRead [3]).2.2 :=
  direct_mode_raw_relay (demoConn "h:99") demoState demoEnvRead [3] [7, 7]
    "truncated length" rfl rfl (by decide) rfl rfl rfl rfl

/-- C6 counterexample: the first message `[0x30]` fails decoding and does
not begin with the marker byte, and indeed no reply is sent — but the
session is NOT torn down: the scope is not cancelled and the registry entry
remains, refuting the claim's teardown conjunct. -/
theorem malformed_no_marker_counterexample :
    decodePDU [48] = .error "truncated length"
    ∧ ([48] : List Nat).head? ≠ some 3
    ∧ (handleWebSocketMessage (demoConn "reg:80") demoState demoEnvOk [48]).2.2 = []
    ∧ (handleWebSocketMessage (demoConn "reg:80") demoState demoEnvOk [48]).1.cancelled
        = false
    ∧ (handleWebSocketMessage (demoConn "reg:80") demoState demoEnvOk
        [48]).2.1.activeConnections = ["p1"] := by
  decide

/-- C6 amended: a first message that fails decoding and does not begin with
the raw marker byte is silently dropped: no reply of any kind is sent, no
action is taken, and the session is NOT torn down — the connection state
and registry are returned unchanged. -/
theorem malformed_no_marker_dropped (conn : ProxyConnection) (st : ProxyState)
    (env : NetEnv) (bytes : List Nat) (e : String)
    (hrdp : conn.rdpConn = false) (htls : conn.tlsConn = false)
    (hdec : decodePDU bytes = .error e) (hmark : bytes.head? ≠ some 3) :
    handleWebSocketMessage conn st env bytes = (conn, st, []) := by
  cases bytes with
  | nil =>
    rw [handleWebSocketMessage, if_neg (by simp [hrdp, htls]), hdec]
  | cons b t =>
    have hb : b ≠ 3 := by simpa using hmark
    rw [handleWebSocketMessage, if_neg (by simp [hrdp, htls]), hdec]
    simp [hb]

/-- Witness for C6's amended statement at the input `[0x30]`. -/
theorem malformed_no_marker_dropped_witness :
    handleWebSocketMessage (demoConn "reg:80") demoState demoEnvOk [48]
      = (demoConn "reg:80", demoState, []) :=
  malformed_no_marker_dropped (demoConn "reg:80") demoState demoEnvOk [48]
    "truncated length" rfl rfl (by decide) (by decide)

/-- The head element of a stream declares more content bytes than remain
after its header. -/
def headOverdeclares (bs : List Nat) : Prop :=
  ∃ t rest, parseTL bs = .ok (t, rest) ∧ rest.length < t.len

/-- Some field element of the outer SEQUENCE content declares more content
bytes than the remaining buffer holds: the element at the required Version
position, or at any of the eight optional field positions the field chain
visits (the streams left by the preceding fields' parses). The truncation
check runs before tag matching, so this covers mismatching-tag elements at
those positions too. -/
def innerFieldOverdeclares (content : List Nat) : Prop :=
  headOverdeclares content ∨
  match parseExplicitRequired 0 parseIntStream content with
  | .error _ => False
  | .ok (_, r1) =>
    headOverdeclares r1 ∨
    match parseExplicitOptional 1 parseOctetStream r1 with
    | .error _ => False
    | .ok (_, r2) =>
      headOverdeclares r2 ∨
      match parseExplicitOptional 2 parseUTF8Stream r2 with
      | .error _ => False
      | .ok (_, r3) =>
        headOverdeclares r3 ∨
        match parseExplicitOptional 3 parseUTF8Stream r3 with
        | .error _ => False
        | .ok (_, r4) =>
          headOverdeclares r4 ∨
          match parseExplicitOptional 4 parseUTF8Stream r4 with
          | .error _ => False
          | .ok (_, r5) =>
            headOverdeclares r5 ∨
            match parseExplicitOptional 5 parseUTF8Stream r5 with
            | .error _ => False
            | .ok (_, r6) =>
              headOverdeclares r6 ∨
              match parseExplicitOptional 6 parseOctetStream r6 with
              | .error _ => False
              | .ok (_, r7) =>
                headOverdeclares r7 ∨
                match parseExplicitOptional 7 parseCertsStream r7 with
                | .error _ => False
                | .ok (_, r8) => headOverdeclares r8

/-- A declared field length exceeds the remaining buffer: the top-level
element over-declares, or the outer SEQUENCE header is consistent and a
field element inside its content over-declares. -/
def declaredLenExceeds (bs : List Nat) : Prop :=
  headOverdeclares bs ∨
  (∃ t rest, parseTL bs = .ok (t, rest) ∧ ¬ rest.length < t.len ∧
    innerFieldOverdeclares (rest.take t.len))

theorem parseExplicitRequired_overdeclares {A : Type} (tagN : Nat)
    (inner : List Nat → Except String (A × List Nat)) (bs : List Nat)
    (h : headOverdeclares bs) :
    parseExplicitRequired tagN inner bs = .error "data truncated" := by
  obtain ⟨t, rest, hok, hlt⟩ := h
  rw [parseExplicitRequired, hok]
  dsimp only []
  rw [if_pos hlt]

theorem parseExplicitOptional_overdeclares {A : Type} (tagN : Nat)
    (inner : List Nat → Except String (A × List Nat)) (bs : List Nat)
    (h : headOverdeclares bs) :
    parseExplicitOptional tagN inner bs = .error "data truncated" := by
  obtain ⟨t, rest, hok, hlt⟩ := h
  cases bs with
  | nil => simp [parseTL] at hok
  | cons b tl =>
    simp only [parseExplicitOptional]
    rw [hok]
    dsimp only []
    rw [if_pos hlt]

/-- C8: decoding is a total Lean function into `Except` — it cannot panic —
and on the claim's malformed classes it reports an error: every input
shorter than two bytes, and every input with a declared field length
exceeding the remaining buffer — the top-level element's, or that of the
element at any field position inside the outer SEQUENCE — is rejected. -/
theorem decodePDU_malformed (bs : List Nat)
    (h : bs.length < 2 ∨ declaredLenExceeds bs) :
    ∃ e, decodePDU bs = .error e := by
  rcases h with hlen | hout | ⟨t, rest, hok, hnlt, hinner⟩
  · cases bs with
    | nil => exact ⟨"truncated tag", rfl⟩
    | cons b tl =>
      cases tl with
      | nil =>
        by_cases h31 : b % 32 = 31
        · refine ⟨"truncated base 128 integer", ?_⟩
          have hTL : parseTL [b] = .error "truncated base 128 integer" := by
            simp [parseTL, h31, parseBase128]
          rw [decodePDU, hTL]
        · refine ⟨"truncated length", ?_⟩
          have hTL : parseTL [b] = .error "truncated length" := by
            simp [parseTL, h31, decLen]
          rw [decodePDU, hTL]
      | cons b2 tl2 =>
        simp at hlen
        omega
  · obtain ⟨t, rest, hok, hlt⟩ := hout
    refine ⟨"data truncated", ?_⟩
    rw [decodePDU, hok]
    dsimp only []
    rw [if_pos hlt]
  · rw [decodePDU, hok]
    dsimp only []
    rw [if_neg hnlt]
    by_cases htag : t.cls = 0 ∧ t.tagNum = 16 ∧ t.compound = true
    · rw [if_pos htag]
      rcases hinner with hh | hinner
      · refine ⟨"data truncated", ?_⟩
        rw [parseExplicitRequired_overdeclares 0 parseIntStream _ hh]
      · cases hE0 : parseExplicitRequired 0 parseIntStream (rest.take t.len) with
        | error e =>
          rw [hE0] at hinner
          dsimp only [] at hinner
        | ok res =>
          obtain ⟨ver, r1⟩ := res
          rw [hE0] at hinner
          dsimp only [] at hinner ⊢
          rcases hinner with hh | hinner
          · refine ⟨"data truncated", ?_⟩
            rw [parseExplicitOptional_overdeclares 1 parseOctetStream _ hh]
          · cases hE1 : parseExplicitOptional 1 parseOctetStream r1 with
            | error e =>
              rw [hE1] at hinner
              dsimp only [] at hinner
            | ok res =>
              obtain ⟨x1, r2⟩ := res
              rw [hE1] at hinner
              dsimp only [] at hinner ⊢
              rcases hinner with hh | hinner
              · refine ⟨"data truncated", ?_⟩
                rw [parseExplicitOptional_overdeclares 2 parseUTF8Stream _ hh]
              · cases hE2 : parseExplicitOptional 2 parseUTF8Stream r2 with
                | error e =>
                  rw [hE2] at hinner
                  dsimp only [] at hinner
                | ok res =>
                  obtain ⟨x2, r3⟩ := res
                  rw [hE2] at hinner
                  dsimp only [] at hinner ⊢
                  rcases hinner with hh | hinner
                  · refine ⟨"data truncated", ?_⟩
                    rw [parseExplicitOptional_overdeclares 3 parseUTF8Stream _ hh]
                  · cases hE3 : parseExplicitOptional 3 parseUTF8Stream r3 with
                    | error e =>
                      rw [hE3] at hinner
                      dsimp only [] at hinner
                    | ok res =>
                      obtain ⟨x3, r4⟩ := res
                      rw [hE3] at hinner
                      dsimp only [] at hinner ⊢
                      rcases hinner with hh | hinner
                      · refine ⟨"data truncated", ?_⟩
                        rw [parseExplicitOptional_overdeclares 4 parseUTF8Stream _ hh]
                      · cases hE4 : parseExplicitOptional 4 parseUTF8Stream r4 with
                        | error e =>
                          rw [hE4] at hinner
                          dsimp only [] at hinner
                        | ok res =>
                          obtain ⟨x4, r5⟩ := res
                          rw [hE4] at hinner
                          dsimp only [] at hinner ⊢
                          rcases hinner with hh | hinner
                          · refine ⟨"data truncated", ?_⟩
                            rw [parseExplicitOptional_overdeclares 5 parseUTF8Stream _ hh]
                          · cases hE5 : parseExplicitOptional 5 parseUTF8Stream r5 with
                            | error e =>
                              rw [hE5] at hinner
                              dsimp only [] at hinner
                            | ok res =>
                              obtain ⟨x5, r6⟩ := res
                              rw [hE5] at hinner
                              dsimp only [] at hinner ⊢
                              rcases hinner with hh | hinner
                              · refine ⟨"data truncated", ?_⟩
                                rw [parseExplicitOptional_overdeclares 6 parseOctetStream _ hh]
                              · cases hE6 : parseExplicitOptional 6 parseOctetStream r6 with
                                | error e =>
                                  rw [hE6] at hinner
                                  dsimp only [] at hinner
                                | ok res =>
                                  obtain ⟨x6, r7⟩ := res
                                  rw [hE6] at hinner
                                  dsimp only [] at hinner ⊢
                                  rcases hinner with hh | hinner
                                  · refine ⟨"data truncated", ?_⟩
                                    rw [parseExplicitOptional_overdeclares 7 parseCertsStream _ hh]
                                  · cases hE7 : parseExplicitOptional 7 parseCertsStream r7 with
                                    | error e =>
                                      rw [hE7] at hinner
                                      dsimp only [] at hinner
                                    | ok res =>
                                      obtain ⟨x7, r8⟩ := res
                                      rw [hE7] at hinner
                                      dsimp only [] at hinner ⊢
                                      refine ⟨"data truncated", ?_⟩
                                      rw [parseExplicitOptional_overdeclares 9 parseUTF8Stream _ hinner]
    · rw [if_neg htag]
      exact ⟨"tags don't match", rfl⟩

/-- Witness for C8 at `30 06 A0 0A 02 01 0D 00`: the outer SEQUENCE is
consistent (six content bytes), but the Version field element declares ten
content bytes with only four remaining. -/
theorem decodePDU_malformed_witness :
    ∃ e, decodePDU [48, 6, 160, 10, 2, 1, 13, 0] = .error e :=
  decodePDU_malformed [48, 6, 160, 10, 2, 1, 13, 0]
    (Or.inr (Or.inr ⟨⟨0, true, 16, 6⟩, [160, 10, 2, 1, 13, 0], by decide, by decide,
      Or.inl ⟨⟨2, true, 0, 10⟩, [2, 1, 13, 0], by decide, by decide⟩⟩))

theorem lookupAssoc_insertAssoc (k : String) (v : List Nat)
    (m : List (String × List Nat)) :
    lookupAssoc k (insertAssoc k v m) = some v := by
  induction m with
  | nil => simp [insertAssoc, lookupAssoc]
  | cons kv rest ih =>
    obtain ⟨k2, v2⟩ := kv
    by_cases h : k2 = k <;> simp [insertAssoc, lookupAssoc, h, ih]

/-- C9 counterexample: two consecutive `createProxy` calls on an empty
registry both return `"proxy_0"` (the id is derived from the size of
`activeConnections`, which `createProxy` never touches), and the second
call overwrites the first's destination — refuting uniqueness. -/
theorem createProxy_collision_counterexample :
    (createProxy {} (some ("a", "1"))).1 = "proxy_0"
    ∧ (createProxy (createProxy {} (some ("a", "1"))).2 (some ("b", "2"))).1 = "proxy_0"
    ∧ lookupAssoc "proxy_0"
        ((createProxy (createProxy {} (some ("a", "1"))).2 (some ("b", "2"))).2.destinations)
      = some (strBytes "b:2") := by
  decide

/-- C9 amended: the proxy id is `"proxy_" ++ size of activeConnections`;
since `createProxy` only writes the destination table, any two consecutive
creation calls (with no session attach in between) return the SAME id, and
the second call's destination overwrites the first's under that id. Ids can
differ only when the active-connections count changes between calls. -/
theorem createProxy_id_from_active_count (st : ProxyState)
    (a1 a2 : Option (String × String)) :
    (createProxy st a1).1 = "proxy_" ++ toString st.activeConnections.length
    ∧ (createProxy (createProxy st a1).2 a2).1 = (createProxy st a1).1
    ∧ lookupAssoc (createProxy st a1).1
        ((createProxy (createProxy st a1).2 a2).2.destinations)
      = some (argDestination a2) := by
  refine ⟨rfl, rfl, ?_⟩
  exact lookupAssoc_insertAssoc _ _ _

/-- C10: with the TLS handle installed, every inbound boundary byte string
is written to the TLS connection and never to the raw TCP connection; and
once either handle is installed, inbound bytes bypass PDU decoding entirely
and go straight to the forward path (`forwardToRDP`), leaving connection
state and registry untouched. -/
theorem established_traffic_to_tls (conn : ProxyConnection) (st : ProxyState)
    (env : NetEnv) (bytes : List Nat) :
    (conn.rdpConn = true → conn.tlsConn = true →
      handleWebSocketMessage conn st env bytes = (conn, st, [.wroteTLS bytes]))
    ∧ ((conn.rdpConn = true ∨ conn.tlsConn = true) →
      handleWebSocketMessage conn st env bytes = (conn, st, forwardToRDP conn bytes)) := by
  constructor
  · intro hr ht
    rw [handleWebSocketMessage.eq_def, if_pos (by simp [hr, ht])]
    rw [forwardToRDP, if_pos ht]
  · intro h
    rw [handleWebSocketMessage.eq_def,
      if_pos (by rcases h with h | h <;> simp [h])]

/-- Witness for C10: a session with both handles installed forwards `[1, 2]`
to the TLS connection. -/
theorem established_traffic_to_tls_witness :
    handleWebSocketMessage
        { id := "p1", destination := strBytes "h:3389", rdpConn := true, tlsConn := true }
        demoState demoEnvOk [1, 2]
      = ({ id := "p1", destination := strBytes "h:3389", rdpConn := true, tlsConn := true },
         demoState, [.wroteTLS [1, 2]]) :=
  (established_traffic_to_tls
      { id := "p1", destination := strBytes "h:3389", rdpConn := true, tlsConn := true }
      demoState demoEnvOk [1, 2]).1 rfl rfl

/-- A sample PDU with every optional field present, including a
present-but-empty certificate entry. -/
def samplePDU : RDCleanPathPDU :=
  { Version := 3390, Error := some [65, 66], Destination := [104, 58, 49],
    ProxyAuth := [112], ServerAuth := [113], PreconnectionBlob := [114],
    X224ConnectionPDU := some [3, 0, 0], ServerCertChain := some [[48, 1], []],
    ServerAddr := [104, 58, 49] }

/-- Witness for C7 at `samplePDU`. -/
theorem decodePDU_encodePDU_witness :
    decodePDU (encodePDU samplePDU) = .ok samplePDU :=
  decodePDU_encodePDU samplePDU
    ⟨by decide, by decide, by decide, by decide, by decide, by decide, by decide⟩
